import Mathlib

/-!
# SKAnalysis: matched-event write-out and muon reconstruction

A shallow embedding of `UserTools/ReconstructMatchedMuons/ReconstructMatchedMuons.cpp`:

* `AddAftHits` – the hit window merger (lines 343-406),
* `ReconstructNextMuon` – the reconstruction pipeline (lines 409-710),
* `WriteEventsOut` – the candidate write-out driver (lines 117-341).

Conventions of the embedding.

* A C array is a total map from a signed index to a value (`Int → α`): the memory the
  index expression addresses. Array capacities are not part of the maps; an index outside
  the declared array reads or writes whatever the map holds there.
* A `float` is embedded by its value, a rational number (every finite float is one).
  Floating-point arithmetic (`sqrt`, `pow`, division) is never evaluated: where the code
  computes with it the result is taken from the environment.
* An `int` is embedded as an `Int`; the counters of this tool stay far below `2^31`.
* The Fortran reconstruction routines, the input reader and the output trees are external
  to the repository; they appear as parameters (`Routines`, `Store`) or as explicitly
  marked models.
-/

namespace SKAnalysis

/-! ## Arrays -/

/-- Assignment `a[j] = v` on an array seen as a map from indices to values. -/
def setAt {α : Type} (a : Int → α) (j : Int) (v : α) : Int → α :=
  fun i => if i = j then v else a i

/-- Assignment `a[t][c] = v` on a two-dimensional array. -/
def setAt2 {α : Type} (a : Int → Int → α) (t c : Int) (v : α) : Int → Int → α :=
  fun i => if i = t then setAt (a i) c v else a i

/-! ## Hit windows (`rawtqinfo_common`) -/

/-- The fields of the `rawtqinfo_` common block that `AddAftHits` and `skroot_set_tree_`
use: inner-detector (ID) hits `icabbf_raw`/`qbuf_raw`/`tbuf_raw` with count `nqisk_raw`,
outer-detector (OD) hits `icabaz_raw`/`qaskz_raw`/`taskz_raw` with count `nhitaz_raw`. -/
structure rawtqinfo_common where
  nqisk_raw : Int
  icabbf_raw : Int → Int
  qbuf_raw : Int → ℚ
  tbuf_raw : Int → ℚ
  nhitaz_raw : Int
  icabaz_raw : Int → Int
  qaskz_raw : Int → ℚ
  taskz_raw : Int → ℚ

/-- A zero-initialised common block (static storage before its first assignment). -/
def rawtqinfo_zero : rawtqinfo_common :=
  { nqisk_raw := 0, icabbf_raw := fun _ => 0, qbuf_raw := fun _ => 0, tbuf_raw := fun _ => 0,
    nhitaz_raw := 0, icabaz_raw := fun _ => 0, qaskz_raw := fun _ => 0, taskz_raw := fun _ => 0 }

/-- The overlap scan of lines 359-365 (ID) and 386-392 (OD):
`for(k=0; k<n_aft; ++k){ if(icab_aft[k] != icab[last_hit]) continue;
if(q_aft[k] != q[last_hit]) continue; break; }`. The value is `k` after the loop; the
first argument bounds the number of iterations still to run. -/
def scanOverlap (icab_aft : Int → Int) (q_aft : Int → ℚ) (n_aft : Int)
    (icab : Int → Int) (q : Int → ℚ) (last_hit : Int) : Nat → Int → Int
  | 0, k => k
  | fuel + 1, k =>
    if k < n_aft then
      if icab_aft k ≠ icab last_hit then
        scanOverlap icab_aft q_aft n_aft icab q last_hit fuel (k + 1)
      else if q_aft k ≠ q last_hit then
        scanOverlap icab_aft q_aft n_aft icab q last_hit fuel (k + 1)
      else k
    else k

/-- The three parallel hit arrays of one subsystem: time, charge, channel id. -/
structure HitArrays where
  t : Int → ℚ
  q : Int → ℚ
  icab : Int → Int

/-- The copy loop of lines 372-380 (ID) and 395-402 (OD):
`for(int i=0; i<n_aft; ++i){ t[j] = t_aft[i]; q[j] = q_aft[i]; icab[j] = icab_aft[i]; ++j; }`.
The value is the arrays and `j` after the loop. -/
def copyHits (aft : HitArrays) (n_aft : Int) : Nat → Int → Int → HitArrays → HitArrays × Int
  | 0, _, j, dst => (dst, j)
  | fuel + 1, i, j, dst =>
    if i < n_aft then
      copyHits aft n_aft fuel (i + 1) (j + 1)
        { t := setAt dst.t j (aft.t i), q := setAt dst.q j (aft.q i),
          icab := setAt dst.icab j (aft.icab i) }
    else (dst, j)

/-- The ID half of `AddAftHits` (lines 357-381), on the common block `rawtqinfo_`. -/
def AddAftHits_ID (rawtqinfo_aft rawtqinfo_ : rawtqinfo_common) : rawtqinfo_common :=
  let last_hit := rawtqinfo_.nqisk_raw - 1
  let k := scanOverlap rawtqinfo_aft.icabbf_raw rawtqinfo_aft.qbuf_raw rawtqinfo_aft.nqisk_raw
    rawtqinfo_.icabbf_raw rawtqinfo_.qbuf_raw last_hit rawtqinfo_aft.nqisk_raw.toNat 0
  let j := if k ≠ rawtqinfo_aft.nqisk_raw then k else rawtqinfo_.nqisk_raw
  let r := copyHits
    { t := rawtqinfo_aft.tbuf_raw, q := rawtqinfo_aft.qbuf_raw, icab := rawtqinfo_aft.icabbf_raw }
    rawtqinfo_aft.nqisk_raw rawtqinfo_aft.nqisk_raw.toNat 0 j
    { t := rawtqinfo_.tbuf_raw, q := rawtqinfo_.qbuf_raw, icab := rawtqinfo_.icabbf_raw }
  { rawtqinfo_ with
    tbuf_raw := r.1.t, qbuf_raw := r.1.q, icabbf_raw := r.1.icab, nqisk_raw := r.2 }

/-- The OD half of `AddAftHits` (lines 383-403). Line 394 compares `k` with the count of
the primary block, `rawtqinfo_.nhitaz_raw`, where line 371 compares with the count of the
following block. -/
def AddAftHits_OD (rawtqinfo_aft rawtqinfo_ : rawtqinfo_common) : rawtqinfo_common :=
  let last_hit := rawtqinfo_.nhitaz_raw - 1
  let k := scanOverlap rawtqinfo_aft.icabaz_raw rawtqinfo_aft.qaskz_raw rawtqinfo_aft.nhitaz_raw
    rawtqinfo_.icabaz_raw rawtqinfo_.qaskz_raw last_hit rawtqinfo_aft.nhitaz_raw.toNat 0
  let j := if k ≠ rawtqinfo_.nhitaz_raw then k else rawtqinfo_.nhitaz_raw
  let r := copyHits
    { t := rawtqinfo_aft.taskz_raw, q := rawtqinfo_aft.qaskz_raw, icab := rawtqinfo_aft.icabaz_raw }
    rawtqinfo_aft.nhitaz_raw rawtqinfo_aft.nhitaz_raw.toNat 0 j
    { t := rawtqinfo_.taskz_raw, q := rawtqinfo_.qaskz_raw, icab := rawtqinfo_.icabaz_raw }
  { rawtqinfo_ with
    taskz_raw := r.1.t, qaskz_raw := r.1.q, icabaz_raw := r.1.icab, nhitaz_raw := r.2 }

/-- `ReconstructMatchedMuons::AddAftHits` (lines 343-406): the ID block, then the OD block,
both on the loaded `rawtqinfo_`. The C++ function returns `true` on every path; the value
here is the common block it leaves. -/
def AddAftHits (rawtqinfo_aft rawtqinfo_ : rawtqinfo_common) : rawtqinfo_common :=
  AddAftHits_OD rawtqinfo_aft (AddAftHits_ID rawtqinfo_aft rawtqinfo_)

/-- A window from explicit hit lists `(channel id, charge, time)`; positions past the
lists hold zero. -/
def windowOf (id od : List (Int × ℚ × ℚ)) : rawtqinfo_common :=
  { nqisk_raw := id.length
    icabbf_raw := fun i => if 0 ≤ i then (id.getD i.toNat (0, 0, 0)).1 else 0
    qbuf_raw := fun i => if 0 ≤ i then (id.getD i.toNat (0, 0, 0)).2.1 else 0
    tbuf_raw := fun i => if 0 ≤ i then (id.getD i.toNat (0, 0, 0)).2.2 else 0
    nhitaz_raw := od.length
    icabaz_raw := fun i => if 0 ≤ i then (od.getD i.toNat (0, 0, 0)).1 else 0
    qaskz_raw := fun i => if 0 ≤ i then (od.getD i.toNat (0, 0, 0)).2.1 else 0
    taskz_raw := fun i => if 0 ≤ i then (od.getD i.toNat (0, 0, 0)).2.2 else 0 }

/-! ## Muon reconstruction results (`skroot_mu_common`) -/

/-- The `skroot_mu_` common block, with the fields `skroot_set_mu_` is handed at lines
303-322. `muboy_entpos` is indexed `[track][component]`. -/
structure skroot_mu_common where
  muentpoint : Int → ℚ
  mudir : Int → ℚ
  mutimediff : ℚ
  mugoodness : ℚ
  muqismsk : ℚ
  muyn : Int
  mufast_flag : Int
  muboy_status : Int
  muboy_ntrack : Int
  muboy_entpos : Int → Int → ℚ
  muboy_dir : Int → ℚ
  muboy_goodness : ℚ
  muboy_length : ℚ
  muboy_dedx : Int → ℚ
  mubff_entpos : Int → ℚ
  mubff_dir : Int → ℚ
  mubff_goodness : ℚ
  muninfo : Int
  muinfo : Int → ℚ

/-- A zero-filled `skroot_mu_common`. -/
def skroot_mu_zero : skroot_mu_common :=
  { muentpoint := fun _ => 0, mudir := fun _ => 0, mutimediff := 0, mugoodness := 0,
    muqismsk := 0, muyn := 0, mufast_flag := 0, muboy_status := 0, muboy_ntrack := 0,
    muboy_entpos := fun _ _ => 0, muboy_dir := fun _ => 0, muboy_goodness := 0,
    muboy_length := 0, muboy_dedx := fun _ => 0, mubff_entpos := fun _ => 0,
    mubff_dir := fun _ => 0, mubff_goodness := 0, muninfo := 0, muinfo := fun _ => 0 }

/-- What the external routines called by `ReconstructNextMuon` return on the record that
is loaded: the charge sums in `skq_` before and after `fix_maxqisk_`, and the output
arguments of `mfmuselect_`, `mffastfast_`, `muboy_zbs_`, `newmufit_`, `makededx_` and
`makededx_intg_` (the last two as functions of the entry point and direction they are
handed). `muboy_otherentry i` is the memory `muboy_otherentry[i]` addresses after
`muboy_zbs_` returned; the buffer itself is `0 ≤ i < 36`. `unit_dir j` is the float
`(hpos[j] - bffpos[j])/modd` of lines 545-548. -/
structure Routines where
  qismsk : ℚ
  qimxsk : ℚ
  fix_qismsk : ℚ
  fix_qimxsk : ℚ
  mfmuselect_entpoint : Int → ℚ
  mfmuselect_dir : Int → ℚ
  mfmuselect_goodness : ℚ
  mfmuselect_muyn : Int
  mffastfast_entpoint : Int → ℚ
  mffastfast_dir : Int → ℚ
  mffastfast_muynf : Int
  muboy_status : Int
  muboy_muentry : Int → ℚ
  muboy_dir : Int → ℚ
  muboy_length : ℚ
  muboy_goodness : ℚ
  muboy_ntrack : Int
  muboy_otherentry : Int → ℚ
  newmufit_bffpos : Int → ℚ
  newmufit_hpos : Int → ℚ
  newmufit_goodness : ℚ
  unit_dir : Int → ℚ
  makededx : (Int → ℚ) → (Int → ℚ) → Int → ℚ
  makededx_intg : (Int → ℚ) → (Int → ℚ) → ℚ → Int → ℚ

/-- One call of an external routine, with the entry point and direction it was handed
where the routine takes them as input. -/
inductive Call where
  | fix_maxqisk
  | mfmuselect
  | mffastfast
  | muboy_zbs
  | newmufit
  | makededx (muentry mudir : Int → ℚ)
  | makededx_intg (muentry mudir : Int → ℚ) (length : ℚ)

/-- Is the call one of `mffastfast_`? -/
def Call.isMffastfast : Call → Bool
  | .mffastfast => true
  | _ => false

/-- Is the call one of `newmufit_`? -/
def Call.isNewmufit : Call → Bool
  | .newmufit => true
  | _ => false

/-- The state `ReconstructNextMuon` works on: the common block `skroot_mu_`, the member
vector `reco_muons`, and the record of external calls made so far. -/
structure RecoState where
  skroot_mu_ : skroot_mu_common
  reco_muons : List skroot_mu_common
  calls : List Call

/-- The literal `0.4` of line 534. No float lies between `2/5` and the double nearest to
it, so on float values `x < 0.4` in C++ is `x < 2/5`. -/
def goodnessCut : ℚ := ⟨2, 5, by decide, by decide⟩

/-- The literal `0.3` of line 552; as for `goodnessCut`, on floats `x > 0.3` is `x > 3/10`. -/
def bffCut : ℚ := ⟨3, 10, by decide, by decide⟩

/-- Lines 426-467: charge bookkeeping, `mfmuselect_`, and `mffastfast_` on a bad fit.
The first component is `false` on the `return false` of line 452, with the state reached
there. -/
def fastFit (R : Routines) (mu0 : skroot_mu_common) (calls0 : List Call) :
    Bool × skroot_mu_common × List Call :=
  -- 426-427
  let mu1 := { mu0 with muinfo := setAt (setAt mu0.muinfo 0 R.qismsk) 2 R.qimxsk }
  -- 431-435
  let calls1 := calls0 ++ [Call.fix_maxqisk]
  let mu2 := { mu1 with muqismsk := R.fix_qismsk, muinfo := setAt mu1.muinfo 3 R.fix_qimxsk }
  -- 436: `if(muninfo < 4) muninfo = 4`
  let mu3 := { mu2 with muninfo := if mu2.muninfo < 4 then 4 else mu2.muninfo }
  -- 438-441
  let calls2 := calls1 ++ [Call.mfmuselect]
  let mu4 := { mu3 with muentpoint := R.mfmuselect_entpoint, mudir := R.mfmuselect_dir,
                        mugoodness := R.mfmuselect_goodness }
  let muyn_org := R.mfmuselect_muyn
  -- 446-453
  if muyn_org > 0 ∨ muyn_org < 0 then
    let mu5 := { mu4 with muyn := if muyn_org > 0 then 1 else 0 }
    -- 456-461; `muynf` is written by `mffastfast_` only
    let fast := decide (mu5.muyn = 0)
    let muynf : Option Int := if fast then some R.mffastfast_muynf else none
    let calls3 := if fast then calls2 ++ [Call.mffastfast] else calls2
    let mu6 := { mu5 with
      muentpoint := if fast then R.mffastfast_entpoint else mu5.muentpoint
      mudir := if fast then R.mffastfast_dir else mu5.mudir
      mufast_flag := if fast then 1 else 0 }
    -- 463
    let mu7 := { mu6 with muyn := muyn_org }
    -- 464-467: `if(muyn == 0) muyn = muynf`
    let mu8 := { mu7 with muyn := if mu7.muyn = 0 then muynf.getD 0 else mu7.muyn }
    (true, mu8, calls3)
  else (false, mu4, calls2)

/-- Lines 484-496: the loop that records the entry point of each track. Track 0 takes
`muentry`; track `track ≥ 1` takes `muboy_otherentry[4*track - 7 .. 4*track - 4]`. -/
def entposLoop (muentry muboy_otherentry : Int → ℚ) (ntrack : Int) :
    Nat → Int → (Int → Int → ℚ) → (Int → Int → ℚ)
  | 0, _, e => e
  | fuel + 1, track, e =>
    if track < ntrack then
      if track = 0 then
        entposLoop muentry muboy_otherentry ntrack fuel (track + 1)
          (setAt2 (setAt2 (setAt2 (setAt2 e track 0 (muentry 0)) track 1 (muentry 1))
            track 2 (muentry 2)) track 3 (muentry 3))
      else
        entposLoop muentry muboy_otherentry ntrack fuel (track + 1)
          (setAt2 (setAt2 (setAt2 (setAt2 e track 0 (muboy_otherentry (4 * track - 7)))
            track 1 (muboy_otherentry (4 * track - 6)))
            track 2 (muboy_otherentry (4 * track - 5)))
            track 3 (muboy_otherentry (4 * track - 4)))
    else e

/-- Lines 469-496: `muboy_zbs_` and the recording of the track entry points. -/
def muboyFit (R : Routines) (mu0 : skroot_mu_common) (calls0 : List Call) :
    skroot_mu_common × List Call :=
  let mu1 := { mu0 with muboy_status := R.muboy_status, muboy_dir := R.muboy_dir,
                        muboy_length := R.muboy_length, muboy_goodness := R.muboy_goodness,
                        muboy_ntrack := R.muboy_ntrack }
  let entpos := entposLoop R.muboy_muentry R.muboy_otherentry mu1.muboy_ntrack
    mu1.muboy_ntrack.toNat 0 mu1.muboy_entpos
  let mu2 := { mu1 with muboy_entpos := entpos }
  (mu2, calls0 ++ [Call.muboy_zbs])

/-- The locals `muentry[4]` and `mudir[3]` that are handed to the energy-loss routines. -/
structure Locals where
  muentry : Int → ℚ
  mudir : Int → ℚ

/-- Lines 518-522: `for(int i=0; i<4; ++i){ if(i<3) mudir[i] = muboy_dir[i];
muentry[i] = muboy_entpos[i][0]; }`, the loop written out for `i = 0, 1, 2, 3`.
`mudir` is a fresh local; `muentry` still holds what `muboy_zbs_` put there. -/
def initLocals (muentry : Int → ℚ) (mu : skroot_mu_common) : Locals :=
  { mudir := setAt (setAt (setAt (fun _ => 0) 0 (mu.muboy_dir 0)) 1 (mu.muboy_dir 1))
      2 (mu.muboy_dir 2)
    muentry := setAt (setAt (setAt (setAt muentry 0 (mu.muboy_entpos 0 0))
      1 (mu.muboy_entpos 1 0)) 2 (mu.muboy_entpos 2 0)) 3 (mu.muboy_entpos 3 0) }

/-- The condition of line 534: `!noBFF && tryBFF && muboy_status == 1 && muboy_goodness < 0.4`. -/
def bffGate (noBFF tryBFF : Bool) (mu : skroot_mu_common) : Bool :=
  !noBFF && tryBFF && decide (mu.muboy_status = 1) && decide (mu.muboy_goodness < goodnessCut)

/-- Lines 553-556: `for(int j = 0; j < 3; j++){ muentry[j] = mubff_entpos[j];
mudir[j] = mubff_dir[j]; }`, the override of the entry position and direction that are
handed to the energy-loss routines. -/
def overrideLocals (mu : skroot_mu_common) (l : Locals) : Locals :=
  { muentry := setAt (setAt (setAt l.muentry 0 (mu.mubff_entpos 0))
      1 (mu.mubff_entpos 1)) 2 (mu.mubff_entpos 2)
    mudir := setAt (setAt (setAt l.mudir 0 (mu.mubff_dir 0))
      1 (mu.mubff_dir 1)) 2 (mu.mubff_dir 2) }

/-- Lines 534-573: the precision fit (BFF) and the override of the locals. -/
def precisionFit (noBFF tryBFF : Bool) (R : Routines) (l0 : Locals) (mu0 : skroot_mu_common)
    (calls0 : List Call) : Locals × skroot_mu_common × List Call :=
  if bffGate noBFF tryBFF mu0 then
    -- 538-549
    let calls1 := calls0 ++ [Call.newmufit]
    let mu1 := { mu0 with mubff_goodness := R.newmufit_goodness }
    let mu2 := { mu1 with
      mubff_entpos := setAt (setAt (setAt mu1.mubff_entpos 0 (R.newmufit_bffpos 0))
        1 (R.newmufit_bffpos 1)) 2 (R.newmufit_bffpos 2)
      mubff_dir := setAt (setAt (setAt mu1.mubff_dir 0 (R.unit_dir 0))
        1 (R.unit_dir 1)) 2 (R.unit_dir 2) }
    -- 552-563
    if mu2.mubff_goodness > bffCut then
      (overrideLocals mu2 l0, { mu2 with muinfo := setAt mu2.muinfo 6 1 }, calls1)
    else
      (l0, { mu2 with muinfo := setAt mu2.muinfo 6 0 }, calls1)
  else
    -- 566-572
    let mu1 := { mu0 with mubff_goodness := 0 }
    let mu2 := { mu1 with
      mubff_entpos := setAt (setAt (setAt mu1.mubff_entpos 0 0) 1 0) 2 0
      mubff_dir := setAt (setAt (setAt mu1.mubff_dir 0 0) 1 0) 2 0 }
    (l0, { mu2 with muinfo := setAt mu2.muinfo 6 0 }, calls0)

/-- Lines 582-677, the body of the loop over the tracks up to the `push_back`: the track
index goes to `muinfo[7]`, for `mutrack > 0` the entry point is replaced by the one
recorded for the track, `makededx_` fills `muinfo[10..209]`, `muninfo` becomes 210 and
`makededx_intg_` fills `muboy_dedx`. The value is `muentry`, `skroot_mu_` and the two
calls made. -/
def dedxBody (R : Routines) (mudir : Int → ℚ) (mutrack : Int) (muentry : Int → ℚ)
    (mu0 : skroot_mu_common) : (Int → ℚ) × skroot_mu_common × List Call :=
  -- 582
  let mu1 := { mu0 with muinfo := setAt mu0.muinfo 7 (mutrack : ℚ) }
  -- 585-590
  let muentry1 := if mutrack > 0 then
      setAt (setAt (setAt (setAt muentry 0 (mu1.muboy_entpos mutrack 0))
        1 (mu1.muboy_entpos mutrack 1)) 2 (mu1.muboy_entpos mutrack 2))
        3 (mu1.muboy_entpos mutrack 3)
    else muentry
  -- 642-653
  let dedx := R.makededx muentry1 mudir
  let mu2 := { mu1 with
    muinfo := fun i => if 10 ≤ i ∧ i < 210 then dedx (i - 10) else mu1.muinfo i }
  -- 658
  let mu3 := { mu2 with muninfo := 210 }
  -- 666-677
  let mu4 := { mu3 with muboy_dedx := R.makededx_intg muentry1 mudir mu3.muboy_length }
  (muentry1, mu4, [Call.makededx muentry1 mudir,
                   Call.makededx_intg muentry1 mudir mu3.muboy_length])

/-- Lines 580-704: the loop over the tracks, `for(int mutrack=0; mutrack<muboy_ntrack;
++mutrack)`; each turn runs `dedxBody` and pushes a copy of `skroot_mu_` onto
`reco_muons` (line 702). -/
def dedxLoop (R : Routines) (mudir : Int → ℚ) :
    Nat → Int → (Int → ℚ) → RecoState → RecoState
  | 0, _, _, s => s
  | fuel + 1, mutrack, muentry, s =>
    if mutrack < s.skroot_mu_.muboy_ntrack then
      let b := dedxBody R mudir mutrack muentry s.skroot_mu_
      dedxLoop R mudir fuel (mutrack + 1) b.1
        { skroot_mu_ := b.2.1, reco_muons := s.reco_muons ++ [b.2.1],
          calls := s.calls ++ b.2.2 }
    else s

/-- Lines 469-573: the multi-track fit, the locals for the energy-loss routines, and the
precision fit. -/
def fitStages (noBFF tryBFF : Bool) (R : Routines) (mu0 : skroot_mu_common)
    (calls0 : List Call) : Locals × skroot_mu_common × List Call :=
  let m := muboyFit R mu0 calls0
  precisionFit noBFF tryBFF R (initLocals R.muboy_muentry m.1) m.1 m.2

/-- `ReconstructMatchedMuons::ReconstructNextMuon` (lines 409-710). `noBFF` is the tool's
configuration flag, `vars_tryBFF` the entry `"tryBFF"` of `m_data->vars` (absent: `none`),
`R` the external routines on the loaded record. The value is the `bool` returned and the
state left. -/
def ReconstructNextMuon (noBFF : Bool) (vars_tryBFF : Option Bool) (R : Routines)
    (s : RecoState) : Bool × RecoState :=
  -- 413
  let reco_muons : List skroot_mu_common := []
  -- 418-419
  let tryBFF := vars_tryBFF.getD false
  -- 426-467
  let f := fastFit R s.skroot_mu_ s.calls
  if f.1 then
    -- 469-573
    let p := fitStages noBFF tryBFF R f.2.1 f.2.2
    -- 580-709
    (true, dedxLoop R p.1.mudir p.2.1.muboy_ntrack.toNat 0 p.1.muentry
      { skroot_mu_ := p.2.1, reco_muons := reco_muons, calls := p.2.2 })
  else
    (false, { skroot_mu_ := f.2.1, reco_muons := reco_muons, calls := f.2.2 })

/-- The first four conditions of the precision-fit override, in the words of the claim:
precision fitting not vetoed by configuration, permitted for this record (`"tryBFF"`
present and true), multi-track status 1, multi-track goodness below 0.4. -/
def bffEnabled (noBFF : Bool) (vars_tryBFF : Option Bool) (R : Routines) : Prop :=
  noBFF = false ∧ vars_tryBFF.getD false = true ∧ R.muboy_status = 1 ∧
    R.muboy_goodness < 2 / 5

/-- All five conditions of the precision-fit override: the first four, and the precision
fit's own goodness above 0.3. -/
def bffAccepted (noBFF : Bool) (vars_tryBFF : Option Bool) (R : Routines) : Prop :=
  bffEnabled noBFF vars_tryBFF R ∧ 3 / 10 < R.newmufit_goodness

/-- The entry point and direction of the first `makededx_` call in a list of calls. -/
def firstDedx : List Call → Option ((Int → ℚ) × (Int → ℚ))
  | [] => none
  | Call.makededx e d :: _ => some (e, d)
  | _ :: cs => firstDedx cs

/-! ## Candidates, the input reader and the output trees -/

/-- The low-energy reconstruction payload `skroot_lowe_common`, with the fields that are
handed to `skroot_set_lowe_` at lines 225-268, in that order. Arrays are lists of values,
`int` fields are embedded by value. -/
structure skroot_lowe_common where
  bsvertex : List ℚ
  bsresult : List ℚ
  bsdir : List ℚ
  bsgood : List ℚ
  bsdirks : ℚ
  bseffhit : List ℚ
  bsenergy : ℚ
  bsn50 : ℚ
  bscossun : ℚ
  clvertex : List ℚ
  clresult : List ℚ
  cldir : List ℚ
  clgoodness : ℚ
  cldirks : ℚ
  cleffhit : List ℚ
  clenergy : ℚ
  cln50 : ℚ
  clcossun : ℚ
  latmnum : ℚ
  latmh : ℚ
  lmx24 : ℚ
  ltimediff : ℚ
  lnsratio : ℚ
  lsdir : List ℚ
  spaevnum : ℚ
  spaloglike : ℚ
  sparesq : ℚ
  spadt : ℚ
  spadll : ℚ
  spadlt : ℚ
  spamuyn : ℚ
  spamugdn : ℚ
  posmc : List ℚ
  dirmc : List ℚ
  pabsmc : List ℚ
  energymc : List ℚ
  darkmc : ℚ
  islekeep : ℚ
  bspatlik : ℚ
  clpatlik : ℚ
  lwatert : ℚ
  lninfo : ℚ
  linfo : List ℚ

/-- A payload whose scalar fields all hold `x` and whose arrays are empty. -/
def skroot_lowe_const (x : ℚ) : skroot_lowe_common :=
  { bsvertex := [], bsresult := [], bsdir := [], bsgood := [], bsdirks := x, bseffhit := [],
    bsenergy := x, bsn50 := x, bscossun := x, clvertex := [], clresult := [], cldir := [],
    clgoodness := x, cldirks := x, cleffhit := [], clenergy := x, cln50 := x, clcossun := x,
    latmnum := x, latmh := x, lmx24 := x, ltimediff := x, lnsratio := x, lsdir := [],
    spaevnum := x, spaloglike := x, sparesq := x, spadt := x, spadll := x, spadlt := x,
    spamuyn := x, spamugdn := x, posmc := [], dirmc := [], pabsmc := [], energymc := [],
    darkmc := x, islekeep := x, bspatlik := x, clpatlik := x, lwatert := x, lninfo := x,
    linfo := [] }

/-- `EventType`, the category of a queue. -/
inductive EventType where
  | LowE
  | Muon
  deriving DecidableEq

/-- The fields of a `ParticleCand` that `WriteEventsOut` reads. -/
structure ParticleCand where
  InEntryNumber : Nat
  SubTriggerNumber : Int
  it0xsk : Int
  hasAFT : Bool
  matchedParticleEvNum : List Int
  matchedParticleEntryNum : List Int
  matchedParticleHasAFT : List Bool
  matchedParticleTimeDiff : List ℚ
  matchedParticleBSEnergy : List ℚ
  EventTicks : Nat
  NumRollovers : Nat
  LowECommon : skroot_lowe_common

/-- What loading one entry of the input file puts in memory: the event number of the
header, the hit window, and what the reconstruction routines return on that record. -/
structure Record where
  nevsk : Int
  rawtqinfo : rawtqinfo_common
  routines : Routines

/-- The input file behind the reader `rfmReader`. `readable n` says whether reading entry
`n` succeeds; `record n mask` is what is loaded by reading entry `n` under bad-channel
masking mode `mask`; `skcread n gate mask` is the status and the record of the re-read of
entry `n` through `skcread_` with timing gate `gate`. -/
structure Store where
  readable : Nat → Bool
  record : Nat → Int → Record
  skcread : Nat → Int → Int → Int × Record

/-- One row of an output tree: the HEAD and TQREAL branches, the LOWE and MU branches, and
the seven branches registered in `Initialise` (lines 65-81). -/
structure Row where
  nevsk : Int
  tq : rawtqinfo_common
  lowe : skroot_lowe_common
  mu : skroot_mu_common
  HwClockTicks : Nat
  NumRollovers : Nat
  MatchedEvNums : List Int
  MatchedEntryNums : List Int
  MatchedHasAFTs : List Bool
  MatchedTimeDiff : List ℚ
  MatchedParticleE : List ℚ

/-- An output tree behind a logic unit number: the branch buffers written by
`skroot_set_tree_`, `skroot_set_lowe_` and `skroot_set_mu_`, and the rows filled so far. -/
structure OutTree where
  nevsk : Int
  tq : rawtqinfo_common
  lowe : skroot_lowe_common
  mu : skroot_mu_common
  rows : List Row

/-- The tool's configuration that `WriteEventsOut` reads: the `noBFF` veto and the logic
unit number of the relic writer. -/
structure Config where
  noBFF : Bool
  relicWriterLUN : Int

/-- Everything `WriteEventsOut` reads or writes besides its arguments: the reader position
(`rfmReader->GetEntryNumber()`) and the loaded record, the function-static buffer
`rawtqinfo_aft`, the masking mode `combad_.imaskbadopt` and the member that saves it, the
timing gate, the `"tryBFF"` variable, the reconstruction state, the `CStore` entry
`"reco_muons"`, the common block `skroot_lowe_`, the seven branch variables, and the output
trees by logic unit number. -/
structure World where
  entry : Nat
  nevsk : Int
  rawtqinfo_ : rawtqinfo_common
  routines : Routines
  rawtqinfo_aft : rawtqinfo_common
  imaskbadopt : Int
  current_badch_masking : Int
  timing_gate : Int
  vars_tryBFF : Option Bool
  reco : RecoState
  CStore_reco_muons : Option (List skroot_mu_common)
  skroot_lowe_ : skroot_lowe_common
  HwClockTicks : Nat
  NumRollovers : Nat
  MatchedEvNums : List Int
  MatchedEntryNums : List Int
  MatchedHasAFTs : List Bool
  MatchedTimeDiff : List ℚ
  MatchedParticleE : List ℚ
  trees : Int → OutTree

/-- Modelled from the spec: `DataModel::getTreeEntry(rfmReaderName, entry)`, the store's
`Seek(entry) -> record | ReadError`. A read that succeeds makes `entry` the reader's
current entry and replaces the loaded record; a read that fails returns `false` and leaves
the reader where it was. -/
def getTreeEntry (S : Store) (entry : Nat) (w : World) : Bool × World :=
  if S.readable entry then
    let r := S.record entry w.imaskbadopt
    (true, { w with entry := entry, nevsk := r.nevsk, rawtqinfo_ := r.rawtqinfo,
                    routines := r.routines })
  else (false, w)

/-- Modelled from the spec: `set_timing_gate_(&it0xsk)` followed by `skcread_(&neglun,
&get_ok)` with a negative logic unit (lines 175-177), the store's
`SeekWithTimingGate(entry, gateOffset) -> status`: the current entry is fetched again
through the gated path, the reader stays on it, and the status is returned. -/
def skcread_ (S : Store) (it0xsk : Int) (w : World) : Int × World :=
  let r := S.skcread w.entry it0xsk w.imaskbadopt
  (r.1, { w with timing_gate := it0xsk, nevsk := r.2.nevsk, rawtqinfo_ := r.2.rawtqinfo,
                 routines := r.2.routines })

/-- Model of `skroot_set_tree_(&lun)`: the HEAD and TQREAL buffers of tree `lun` are set
from the header and `rawtqinfo_` common blocks (lines 208-211). -/
def skroot_set_tree_ (lun : Int) (w : World) : World :=
  let t := w.trees lun
  { w with trees := setAt w.trees lun { t with nevsk := w.nevsk, tq := w.rawtqinfo_ } }

/-- Model of `skroot_set_lowe_(&lun, ...)`: the LOWE buffer of tree `lun` is set from
the fields handed over, which at lines 225-268 are all the fields of `skroot_lowe_`. -/
def skroot_set_lowe_ (lun : Int) (l : skroot_lowe_common) (w : World) : World :=
  let t := w.trees lun
  { w with trees := setAt w.trees lun { t with lowe := l } }

/-- Model of `skroot_set_mu_(&lun, ...)`: the MU buffer of tree `lun` is set from the
fields handed over, which at lines 303-322 are all the fields of `skroot_mu_`. -/
def skroot_set_mu_ (lun : Int) (m : skroot_mu_common) (w : World) : World :=
  let t := w.trees lun
  { w with trees := setAt w.trees lun { t with mu := m } }

/-- Model of `skroot_fill_tree_(&lun)` (`TTree::Fill`): one row is appended to tree
`lun`, from its branch buffers and the branch variables registered in `Initialise`. -/
def skroot_fill_tree_ (lun : Int) (w : World) : World :=
  let t := w.trees lun
  let row : Row :=
    { nevsk := t.nevsk, tq := t.tq, lowe := t.lowe, mu := t.mu
      HwClockTicks := w.HwClockTicks, NumRollovers := w.NumRollovers
      MatchedEvNums := w.MatchedEvNums, MatchedEntryNums := w.MatchedEntryNums
      MatchedHasAFTs := w.MatchedHasAFTs, MatchedTimeDiff := w.MatchedTimeDiff
      MatchedParticleE := w.MatchedParticleE }
  { w with trees := setAt w.trees lun { t with rows := t.rows ++ [row] } }

/-! ## `WriteEventsOut` -/

/-- Lines 136-156: the read of the AFT entry `InEntryNumber+1` into the static buffer
`rawtqinfo_aft`, made when the candidate has an AFT and `InEntryNumber+1` differs from
`currentEntry`. The first component is `false` on the `return false` of line 150. -/
def prefetchAFT (S : Store) (currentEntry : Nat) (c : ParticleCand) (w : World) :
    Bool × World :=
  if c.hasAFT && decide (c.InEntryNumber + 1 ≠ currentEntry) then
    let r := getTreeEntry S (c.InEntryNumber + 1) w
    if r.1 then (true, { r.2 with rawtqinfo_aft := r.2.rawtqinfo_ })
    else (false, r.2)
  else (true, w)

/-- Lines 160-189: the load of the primary entry, for muons under masking mode 0, and
the re-read of a subtrigger. The first component is `false` on the `return false` of
line 182. The status of the read at line 171 is not looked at. -/
def loadPrimary (S : Store) (eventType : EventType) (c : ParticleCand) (w : World) :
    Bool × World :=
  -- 162-166
  let w1 := if eventType = EventType.Muon then
      { w with current_badch_masking := w.imaskbadopt, imaskbadopt := 0 }
    else w
  -- 171
  let w2 := (getTreeEntry S c.InEntryNumber w1).2
  -- 174-184
  let g : Bool × World :=
    if c.SubTriggerNumber ≠ 0 then
      let r := skcread_ S c.it0xsk w2
      (decide (r.1 = 0), r.2)
    else (true, w2)
  if g.1 then
    -- 186-189
    (true, if eventType = EventType.Muon then
        { g.2 with imaskbadopt := g.2.current_badch_masking }
      else g.2)
  else (false, g.2)

/-- Lines 294-327: one row per element of the vector got from the `CStore`. -/
def fillMuons (outLUN : Int) : List skroot_mu_common → World → World
  | [], w => w
  | m :: ms, w =>
    let w1 := { w with reco := { w.reco with skroot_mu_ := m } }
    fillMuons outLUN ms (skroot_fill_tree_ outLUN (skroot_set_mu_ outLUN w1.reco.skroot_mu_ w1))

/-- Lines 205-329: the merge of the buffered AFT hits, the branch variables, and the
rows. For a muon the rows come from the `CStore` entry `"reco_muons"` (line 290). -/
def emit (cfg : Config) (outLUN : Int) (eventType : EventType) (c : ParticleCand)
    (w : World) : World :=
  -- 205-206
  let w1 := { w with rawtqinfo_ := AddAftHits w.rawtqinfo_aft w.rawtqinfo_ }
  -- 208-211
  let w2 := skroot_set_tree_ outLUN w1
  -- 213-220
  let w3 := { w2 with
    MatchedEvNums := c.matchedParticleEvNum
    MatchedEntryNums := c.matchedParticleEntryNum
    MatchedHasAFTs := c.matchedParticleHasAFT
    MatchedTimeDiff := c.matchedParticleTimeDiff
    MatchedParticleE := c.matchedParticleBSEnergy
    HwClockTicks := c.EventTicks
    NumRollovers := c.NumRollovers }
  match eventType with
  | EventType.LowE =>
    -- 223-271
    let w4 := { w3 with skroot_lowe_ := c.LowECommon }
    let w5 := skroot_set_lowe_ cfg.relicWriterLUN w4.skroot_lowe_ w4
    skroot_fill_tree_ outLUN w5
  | EventType.Muon =>
    -- 287-329
    match w3.CStore_reco_muons with
    | some mu_reco_info => fillMuons outLUN mu_reco_info w3
    | none => w3

/-- The body of the loop of `WriteEventsOut` (lines 121-331) for one candidate. The first
component is `false` when the body executes `return false`; a failed reconstruction is
the `continue` of line 201. -/
def writeCandidate (S : Store) (cfg : Config) (outLUN : Int) (eventType : EventType)
    (currentEntry : Nat) (c : ParticleCand) (w : World) : Bool × World :=
  let a := prefetchAFT S currentEntry c w
  if a.1 then
    let b := loadPrimary S eventType c a.2
    if b.1 then
      if eventType = EventType.Muon then
        -- 191-203
        let r := ReconstructNextMuon cfg.noBFF b.2.vars_tryBFF b.2.routines b.2.reco
        let w1 := { b.2 with reco := r.2 }
        if r.1 then (true, emit cfg outLUN eventType c w1) else (true, w1)
      else (true, emit cfg outLUN eventType c b.2)
    else b
  else a

/-- The loop `for(int i = 0; i < eventsToWrite.size(); i++)` of line 121. -/
def writeLoop (S : Store) (cfg : Config) (outLUN : Int) (eventType : EventType)
    (currentEntry : Nat) : List ParticleCand → World → Bool × World
  | [], w => (true, w)
  | c :: cs, w =>
    let r := writeCandidate S cfg outLUN eventType currentEntry c w
    if r.1 then writeLoop S cfg outLUN eventType currentEntry cs r.2 else r

/-- `ReconstructMatchedMuons::WriteEventsOut` (lines 117-341). The value is the `bool`
returned, the queue `eventsToWrite` as the call leaves it, and the world. -/
def WriteEventsOut (S : Store) (cfg : Config) (eventsToWrite : List ParticleCand)
    (outLUN : Int) (eventType : EventType) (w : World) :
    Bool × List ParticleCand × World :=
  -- 119
  let currentEntry := w.entry
  -- 121-331
  let r := writeLoop S cfg outLUN eventType currentEntry eventsToWrite w
  if r.1 then
    -- 333-340
    let w1 := if currentEntry ≠ r.2.entry then (getTreeEntry S currentEntry r.2).2 else r.2
    (true, [], w1)
  else (false, eventsToWrite, r.2)

/-- No store read fails for candidate `c`, when the call was entered with the reader on
`currentEntry` and reads run under masking mode `mask`: the lookahead read of
`InEntryNumber+1` (made when the candidate has an AFT and that entry is not
`currentEntry`), the primary read of `InEntryNumber`, and the subtrigger re-read (made
when `SubTriggerNumber` is not zero, successful on status 0). -/
def readsSucceed (S : Store) (currentEntry : Nat) (mask : Int) (c : ParticleCand) : Prop :=
  (c.hasAFT = true → c.InEntryNumber + 1 ≠ currentEntry →
    S.readable (c.InEntryNumber + 1) = true) ∧
  S.readable c.InEntryNumber = true ∧
  (c.SubTriggerNumber ≠ 0 → (S.skcread c.InEntryNumber c.it0xsk mask).1 = 0)

/-- The columns of a row that a LowE candidate determines: the low-energy payload, the
five match columns and the two timestamp columns. -/
def Row.candColumns (r : Row) :
    skroot_lowe_common × List Int × List Int × List Bool × List ℚ × List ℚ × Nat × Nat :=
  (r.lowe, r.MatchedEvNums, r.MatchedEntryNums, r.MatchedHasAFTs, r.MatchedTimeDiff,
    r.MatchedParticleE, r.HwClockTicks, r.NumRollovers)

/-- The same columns as the candidate carries them: `LowECommon`, the match metadata and
the timestamp fields. -/
def ParticleCand.columns (c : ParticleCand) :
    skroot_lowe_common × List Int × List Int × List Bool × List ℚ × List ℚ × Nat × Nat :=
  (c.LowECommon, c.matchedParticleEvNum, c.matchedParticleEntryNum, c.matchedParticleHasAFT,
    c.matchedParticleTimeDiff, c.matchedParticleBSEnergy, c.EventTicks, c.NumRollovers)

/-! ## The array positions `AddAftHits` touches -/

/-- One array access of `AddAftHits`: the subsystem (`od` true for the OD arrays, false
for the ID arrays), the block (`primary` true for the loaded `rawtqinfo_`, false for the
following `rawtqinfo_aft`), and the index. -/
structure Access where
  od : Bool
  primary : Bool
  index : Int
  deriving DecidableEq

/-- The overlap scan of lines 359-365 and 386-392 as `scanOverlap`, with the accesses it
makes: each turn reads `icab_aft[k]` and `icab[last_hit]`, and when these agree also
`q_aft[k]` and `q[last_hit]`. -/
def scanOverlapT (od : Bool) (icab_aft : Int → Int) (q_aft : Int → ℚ) (n_aft : Int)
    (icab : Int → Int) (q : Int → ℚ) (last_hit : Int) : Nat → Int → Int × List Access
  | 0, k => (k, [])
  | fuel + 1, k =>
    if k < n_aft then
      if icab_aft k ≠ icab last_hit then
        let r := scanOverlapT od icab_aft q_aft n_aft icab q last_hit fuel (k + 1)
        (r.1, Access.mk od false k :: Access.mk od true last_hit :: r.2)
      else if q_aft k ≠ q last_hit then
        let r := scanOverlapT od icab_aft q_aft n_aft icab q last_hit fuel (k + 1)
        (r.1, Access.mk od false k :: Access.mk od true last_hit ::
              Access.mk od false k :: Access.mk od true last_hit :: r.2)
      else
        (k, [Access.mk od false k, Access.mk od true last_hit,
             Access.mk od false k, Access.mk od true last_hit])
    else (k, [])

/-- The copy loop of lines 372-380 and 395-402 as `copyHits`, with the accesses it makes:
each of the three assignments of a turn reads position `i` of a following array and
writes position `j` of a primary array. -/
def copyHitsT (od : Bool) (aft : HitArrays) (n_aft : Int) :
    Nat → Int → Int → HitArrays → (HitArrays × Int) × List Access
  | 0, _, j, dst => ((dst, j), [])
  | fuel + 1, i, j, dst =>
    if i < n_aft then
      let r := copyHitsT od aft n_aft fuel (i + 1) (j + 1)
        { t := setAt dst.t j (aft.t i), q := setAt dst.q j (aft.q i),
          icab := setAt dst.icab j (aft.icab i) }
      (r.1, Access.mk od false i :: Access.mk od true j ::
            Access.mk od false i :: Access.mk od true j ::
            Access.mk od false i :: Access.mk od true j :: r.2)
    else ((dst, j), [])

/-- The accesses of the ID block (lines 357-381) on `rawtqinfo_`. -/
def AddAftHits_ID_accesses (rawtqinfo_aft rawtqinfo_ : rawtqinfo_common) : List Access :=
  let last_hit := rawtqinfo_.nqisk_raw - 1
  let s := scanOverlapT false rawtqinfo_aft.icabbf_raw rawtqinfo_aft.qbuf_raw
    rawtqinfo_aft.nqisk_raw rawtqinfo_.icabbf_raw rawtqinfo_.qbuf_raw last_hit
    rawtqinfo_aft.nqisk_raw.toNat 0
  let j := if s.1 ≠ rawtqinfo_aft.nqisk_raw then s.1 else rawtqinfo_.nqisk_raw
  let r := copyHitsT false
    { t := rawtqinfo_aft.tbuf_raw, q := rawtqinfo_aft.qbuf_raw, icab := rawtqinfo_aft.icabbf_raw }
    rawtqinfo_aft.nqisk_raw rawtqinfo_aft.nqisk_raw.toNat 0 j
    { t := rawtqinfo_.tbuf_raw, q := rawtqinfo_.qbuf_raw, icab := rawtqinfo_.icabbf_raw }
  s.2 ++ r.2

/-- The accesses of the OD block (lines 383-403) on `rawtqinfo_`. -/
def AddAftHits_OD_accesses (rawtqinfo_aft rawtqinfo_ : rawtqinfo_common) : List Access :=
  let last_hit := rawtqinfo_.nhitaz_raw - 1
  let s := scanOverlapT true rawtqinfo_aft.icabaz_raw rawtqinfo_aft.qaskz_raw
    rawtqinfo_aft.nhitaz_raw rawtqinfo_.icabaz_raw rawtqinfo_.qaskz_raw last_hit
    rawtqinfo_aft.nhitaz_raw.toNat 0
  let j := if s.1 ≠ rawtqinfo_.nhitaz_raw then s.1 else rawtqinfo_.nhitaz_raw
  let r := copyHitsT true
    { t := rawtqinfo_aft.taskz_raw, q := rawtqinfo_aft.qaskz_raw, icab := rawtqinfo_aft.icabaz_raw }
    rawtqinfo_aft.nhitaz_raw rawtqinfo_aft.nhitaz_raw.toNat 0 j
    { t := rawtqinfo_.taskz_raw, q := rawtqinfo_.qaskz_raw, icab := rawtqinfo_.icabaz_raw }
  s.2 ++ r.2

/-- The array accesses of `AddAftHits` (lines 357-403), in the order they are made: those
of the ID block on the loaded `rawtqinfo_`, then those of the OD block on what the ID
block left. -/
def AddAftHits_accesses (rawtqinfo_aft rawtqinfo_ : rawtqinfo_common) : List Access :=
  AddAftHits_ID_accesses rawtqinfo_aft rawtqinfo_ ++
    AddAftHits_OD_accesses rawtqinfo_aft (AddAftHits_ID rawtqinfo_aft rawtqinfo_)

/-- An access lies inside its array: the index is not negative and below the capacity of
the subsystem's arrays (`capID` for the ID arrays, `capOD` for the OD arrays). -/
def Access.inBounds (capID capOD : Int) (a : Access) : Prop :=
  0 ≤ a.index ∧ a.index < (if a.od then capOD else capID)

/-! ## `CalculateNeutronCloudVertex::ClosestApproach` -/

/-- The `double` arithmetic `ClosestApproach` uses, taken from the environment: addition,
subtraction, multiplication, division, the conversions between `int` and `double`, and
`sqrt`. -/
structure FloatOps where
  add : ℚ → ℚ → ℚ
  sub : ℚ → ℚ → ℚ
  mul : ℚ → ℚ → ℚ
  div : ℚ → ℚ → ℚ
  ofInt : Int → ℚ
  toInt : ℚ → Int
  sqrt : ℚ → ℚ

/-- The loop of `std::inner_product(first1, last1, first2, init)` with an `int`
accumulator (the literal `0` of lines 115, 116 and 123): while `first1 != last1`,
`init = init + (*first1) * (*first2)`, the sum being converted back to `int`. Iterators
are positions in the vectors `a` and `b`; the first argument counts the turns left. -/
def inner_product_loop (ops : FloatOps) (a b : Int → ℚ) : Nat → Int → Int → Int → Int
  | 0, _, _, init => init
  | fuel + 1, first1, first2, init =>
    inner_product_loop ops a b fuel (first1 + 1) (first2 + 1)
      (ops.toInt (ops.add (ops.ofInt init) (ops.mul (a first1) (b first2))))

/-- The call `std::inner_product(a + first1, a + last1, b + first2, init)`. -/
def inner_product (ops : FloatOps) (a : Int → ℚ) (first1 last1 : Int) (b : Int → ℚ)
    (first2 : Int) (init : Int) : Int :=
  inner_product_loop ops a b (last1 - first1).toNat first1 first2 init

/-- `CalculateNeutronCloudVertex::ClosestApproach` (lines 104-123). A vector of three
doubles is a map that holds its elements at positions 0, 1, 2; `past i` is what the memory
past the end of `muon_dir` holds at position `i ≥ 3`, which the inner product of line 116
reads. The value is the `double` returned and the member `muon_dir` the call sets. -/
def ClosestApproach (ops : FloatOps) (past : Int → ℚ) (skroot_mu_ : skroot_mu_common)
    (vertex : Int → ℚ) : ℚ × (Int → ℚ) :=
  -- 105-106
  let muon_ent : Int → ℚ := fun i => skroot_mu_.muentpoint i
  let muon_dir : Int → ℚ := fun i => if 0 ≤ i ∧ i < 3 then skroot_mu_.mudir i else past i
  -- 108-109
  let diff : Int → ℚ := fun i => if 0 ≤ i ∧ i < 3 then ops.sub (vertex i) (muon_ent i) else 0
  -- 115-116
  let diff_mudir_ip : ℚ := ops.ofInt (inner_product ops diff 0 3 muon_dir 0 0)
  let mudir_muent_ip : ℚ := ops.ofInt (inner_product ops muon_dir 0 3 muon_dir 3 0)
  -- 118-121
  let proj : Int → ℚ := fun i =>
    if 0 ≤ i ∧ i < 3 then ops.mul (ops.div diff_mudir_ip mudir_muent_ip) (muon_dir i) else 0
  let dist_vec : Int → ℚ := fun i =>
    if 0 ≤ i ∧ i < 3 then ops.sub (ops.sub (vertex i) (proj i)) (muon_ent i) else 0
  -- 123
  (ops.sqrt (ops.ofInt (inner_product ops dist_vec 0 0 dist_vec 3 0)), muon_dir)

/-- The value `Execute` fills into `dist_to_mu_plot` at line 56:
`ClosestApproach(neutron_cloud_vertex)`. -/
def Execute_dist_to_mu (ops : FloatOps) (past : Int → ℚ) (skroot_mu_ : skroot_mu_common)
    (neutron_cloud_vertex : Int → ℚ) : ℚ :=
  (ClosestApproach ops past skroot_mu_ neutron_cloud_vertex).1

/-! ## Concrete inputs -/

/-- External routines for the examples: the fast selector returns `muyn`, the fast
fallback quality is `7`, the multi-track fit reports status `status`, goodness
`goodness`, `ntrack` tracks, primary entry `(1, 2, 3, 4)` and the additional-entries
buffer `11, 12, ..., 46` (zero outside the buffer); the precision fit reports goodness
`bffgood`, entry `(21, 22, 23)` and unit direction `(31, 32, 33)`. -/
def routinesOf (muyn status ntrack : Int) (goodness bffgood : ℚ) : Routines :=
  { qismsk := 5, qimxsk := 6, fix_qismsk := 8, fix_qimxsk := 9
    mfmuselect_entpoint := fun _ => 1, mfmuselect_dir := fun _ => 1, mfmuselect_goodness := 1
    mfmuselect_muyn := muyn
    mffastfast_entpoint := fun _ => 2, mffastfast_dir := fun _ => 2, mffastfast_muynf := 7
    muboy_status := status
    muboy_muentry := fun i => if 0 ≤ i ∧ i < 4 then ((i + 1 : Int) : ℚ) else 0
    muboy_dir := fun _ => 3, muboy_length := 100, muboy_goodness := goodness
    muboy_ntrack := ntrack
    muboy_otherentry := fun i => if 0 ≤ i ∧ i < 36 then ((i + 11 : Int) : ℚ) else 0
    newmufit_bffpos := fun i => ((i + 21 : Int) : ℚ), newmufit_hpos := fun _ => 0
    newmufit_goodness := bffgood
    unit_dir := fun i => ((i + 31 : Int) : ℚ)
    makededx := fun _ _ _ => 0, makededx_intg := fun _ _ _ _ => 0 }

/-- A reconstruction state with a zero-filled common block, one stale result left by an
earlier call, and no recorded calls. -/
def recoStale : RecoState :=
  { skroot_mu_ := skroot_mu_zero, reco_muons := [skroot_mu_zero], calls := [] }

/-- An output tree with zeroed buffers and no rows. -/
def outTreeEmpty : OutTree :=
  { nevsk := 0, tq := rawtqinfo_zero, lowe := skroot_lowe_const 0, mu := skroot_mu_zero,
    rows := [] }

/-- A world with the reader on entry `entry`, masking mode `mask`, the routines `R` on the
loaded record, no `"reco_muons"` in the `CStore`, and empty output trees. -/
def worldOf (entry : Nat) (mask : Int) (R : Routines) : World :=
  { entry := entry, nevsk := 0, rawtqinfo_ := rawtqinfo_zero, routines := R
    rawtqinfo_aft := rawtqinfo_zero, imaskbadopt := mask, current_badch_masking := 0
    timing_gate := 0, vars_tryBFF := none
    reco := { skroot_mu_ := skroot_mu_zero, reco_muons := [], calls := [] }
    CStore_reco_muons := none, skroot_lowe_ := skroot_lowe_const 0
    HwClockTicks := 0, NumRollovers := 0, MatchedEvNums := [], MatchedEntryNums := []
    MatchedHasAFTs := [], MatchedTimeDiff := [], MatchedParticleE := []
    trees := fun _ => outTreeEmpty }

/-- The world `worldOf entry mask R` with the vector `l` under `"reco_muons"` in the
`CStore`. -/
def worldWithCStore (entry : Nat) (mask : Int) (R : Routines) (l : List skroot_mu_common) :
    World :=
  { worldOf entry mask R with CStore_reco_muons := some l }

/-- The record of entry `n` in the example store: event number `n`, one ID hit
`(n, n, n)`, no OD hit, and the routines `R`. -/
def recordOf (n : Nat) (R : Routines) : Record :=
  { nevsk := (n : Int), rawtqinfo := windowOf [((n : Int), (n : ℚ), (n : ℚ))] [], routines := R }

/-- A store of `size` entries: entry `n` is readable when `n < size` and holds
`recordOf n R`; the gated re-read returns status `status` and the same record. -/
def storeOf (size : Nat) (status : Int) (R : Routines) : Store :=
  { readable := fun n => decide (n < size)
    record := fun n _ => recordOf n R
    skcread := fun n _ _ => (status, recordOf n R) }

/-- A candidate at entry `entry` with no subtrigger, AFT flag `aft`, match metadata and
timestamp derived from `tag`, and a low-energy payload filled with `tag`. -/
def candOf (entry : Nat) (aft : Bool) (tag : Nat) : ParticleCand :=
  { InEntryNumber := entry, SubTriggerNumber := 0, it0xsk := 0, hasAFT := aft
    matchedParticleEvNum := [(tag : Int)], matchedParticleEntryNum := [(tag : Int) + 1]
    matchedParticleHasAFT := [true], matchedParticleTimeDiff := [(tag : ℚ)]
    matchedParticleBSEnergy := [(tag : ℚ) + 2]
    EventTicks := tag + 3, NumRollovers := tag + 4
    LowECommon := skroot_lowe_const (tag : ℚ) }

/-- The configuration of the examples: precision fitting not vetoed, relic writer on
logic unit 20. -/
def cfgOf (noBFF : Bool) : Config := { noBFF := noBFF, relicWriterLUN := 20 }

/-- A candidate at entry `entry` that is subtrigger 1 of its event, with timing gate
`gate` and no AFT; the other fields as in `candOf`. -/
def candSub (entry : Nat) (gate : Int) (tag : Nat) : ParticleCand :=
  { candOf entry false tag with SubTriggerNumber := 1, it0xsk := gate }

/-- An arithmetic for the examples: exact rational operations, truncation toward zero
for the conversion to `int`, and the integer part of the square root. -/
def exactOps : FloatOps :=
  { add := fun x y => x + y, sub := fun x y => x - y, mul := fun x y => x * y
    div := fun x y => x / y, ofInt := fun n => (n : ℚ)
    toInt := fun x => if 0 ≤ x then Int.floor x else Int.ceil x
    sqrt := fun x => ((Nat.sqrt (Int.floor x).toNat : Nat) : ℚ) }

/-- A common block `skroot_mu_` with entry point `(1, 2, 3)` and direction `(0, 0, 1)`. -/
def muAlongZ : skroot_mu_common :=
  { skroot_mu_zero with
    muentpoint := fun i => ((i + 1 : Int) : ℚ)
    mudir := fun i => if i = 2 then 1 else 0 }

/-- A store of `size` readable entries in which the fast selector returns 0 on the
record of entry `bad` and 1 on every other record (two tracks, no precision fit); the
gated re-read returns status 0. -/
def storeFailAt (size bad : Nat) : Store :=
  { readable := fun n => decide (n < size)
    record := fun n _ => recordOf n (routinesOf (if n = bad then 0 else 1) 1 2 1 0)
    skcread := fun n _ _ => (0, recordOf n (routinesOf (if n = bad then 0 else 1) 1 2 1 0)) }

/-! ## The hit window merger on an empty following window -/

/-- With no ID hit in the following window the ID block changes nothing. -/
theorem AddAftHits_ID_empty (aft prim : rawtqinfo_common) (h : aft.nqisk_raw = 0) :
    AddAftHits_ID aft prim = prim := by
  simp [AddAftHits_ID, h, scanOverlap, copyHits]

/-- With no OD hit in the following window the OD block leaves the arrays and sets the
OD count to zero. -/
theorem AddAftHits_OD_empty (aft prim : rawtqinfo_common) (h : aft.nhitaz_raw = 0) :
    AddAftHits_OD aft prim = { prim with nhitaz_raw := 0 } := by
  by_cases h0 : prim.nhitaz_raw = 0
  · simp [AddAftHits_OD, h, scanOverlap, copyHits, h0]
  · have h1 : ¬ (0 = prim.nhitaz_raw) := fun e => h0 e.symm
    simp [AddAftHits_OD, h, scanOverlap, copyHits, h1]

/-- What `AddAftHits` does with an empty following window: everything is left as it was,
except the OD count, which becomes zero. -/
theorem AddAftHits_empty (aft prim : rawtqinfo_common) (hid : aft.nqisk_raw = 0)
    (hod : aft.nhitaz_raw = 0) :
    AddAftHits aft prim = { prim with nhitaz_raw := 0 } := by
  rw [AddAftHits, AddAftHits_ID_empty aft prim hid, AddAftHits_OD_empty aft prim hod]

/-! ## The ID block when no following hit matches -/

/-- When no following hit from offset `k` on matches the primary's last hit on
(channel id, charge), the overlap scan runs to the end of the following window. -/
theorem scanOverlap_no_match (icab_aft : Int → Int) (q_aft : Int → ℚ) (n_aft : Int)
    (icab : Int → Int) (q : Int → ℚ) (last_hit : Int)
    (hno : ∀ k : Int, 0 ≤ k → k < n_aft →
      ¬ (icab_aft k = icab last_hit ∧ q_aft k = q last_hit)) :
    ∀ (fuel : Nat) (k : Int), 0 ≤ k → k + fuel = n_aft →
      scanOverlap icab_aft q_aft n_aft icab q last_hit fuel k = n_aft := by
  intro fuel
  induction fuel with
  | zero =>
    intro k _ h
    simp only [scanOverlap]
    simpa using h
  | succ n ih =>
    intro k hk h
    have hlt : k < n_aft := by push_cast at h; omega
    have hstep := ih (k + 1) (by omega) (by push_cast at h ⊢; omega)
    have hk2 := hno k hk hlt
    rw [scanOverlap]
    simp only [hlt, if_true]
    by_cases hc : icab_aft k = icab last_hit
    · have hq : q_aft k ≠ q last_hit := fun hq => hk2 ⟨hc, hq⟩
      simp only [hc, ne_eq, not_true_eq_false, if_false, hq, not_false_eq_true, if_true]
      exact hstep
    · simp only [ne_eq, hc, not_false_eq_true, if_true]
      exact hstep

/-- What the copy loop leaves when `fuel` following hits remain from offset `i`: they are
written, in order, to positions `j, j+1, ..., j+fuel-1`; other positions are untouched,
and `j` has advanced by `fuel`. -/
theorem copyHits_spec (aft : HitArrays) (n_aft : Int) :
    ∀ (fuel : Nat) (i j : Int) (dst : HitArrays), i + fuel = n_aft →
      (copyHits aft n_aft fuel i j dst).2 = j + fuel ∧
      (∀ x : Int, (copyHits aft n_aft fuel i j dst).1.t x =
        if j ≤ x ∧ x < j + fuel then aft.t (x - j + i) else dst.t x) ∧
      (∀ x : Int, (copyHits aft n_aft fuel i j dst).1.q x =
        if j ≤ x ∧ x < j + fuel then aft.q (x - j + i) else dst.q x) ∧
      (∀ x : Int, (copyHits aft n_aft fuel i j dst).1.icab x =
        if j ≤ x ∧ x < j + fuel then aft.icab (x - j + i) else dst.icab x) := by
  intro fuel
  induction fuel with
  | zero =>
    intro i j dst _
    refine ⟨by simp [copyHits], ?_, ?_, ?_⟩ <;>
    · intro x
      have hx : ¬ (j ≤ x ∧ x < j + ((0 : Nat) : Int)) := by push_cast; omega
      simp only [copyHits, hx, if_false]
  | succ n ih =>
    intro i j dst h
    have hlt : i < n_aft := by push_cast at h; omega
    obtain ⟨h1, h2, h3, h4⟩ := ih (i + 1) (j + 1)
      { t := setAt dst.t j (aft.t i), q := setAt dst.q j (aft.q i),
        icab := setAt dst.icab j (aft.icab i) }
      (by push_cast at h ⊢; omega)
    rw [copyHits]
    simp only [hlt, if_true]
    refine ⟨by rw [h1]; push_cast; omega, ?_, ?_, ?_⟩
    · intro x
      rw [h2 x]
      by_cases hx : x = j
      · subst hx
        have hA : ¬ (x + 1 ≤ x ∧ x < x + 1 + (n : Int)) := by omega
        have hB : x ≤ x ∧ x < x + ((n + 1 : Nat) : Int) := by push_cast; omega
        simp only [hA, hB, and_self, if_true, if_false, setAt, sub_self, zero_add]
      · by_cases hin : j + 1 ≤ x ∧ x < j + 1 + (n : Int)
        · have hB : j ≤ x ∧ x < j + ((n + 1 : Nat) : Int) := by push_cast; omega
          simp only [hin, hB, and_self, if_true]
          congr 1
          omega
        · have hB : ¬ (j ≤ x ∧ x < j + ((n + 1 : Nat) : Int)) := by push_cast; omega
          simp only [hin, hB, if_false, setAt, hx]
    · intro x
      rw [h3 x]
      by_cases hx : x = j
      · subst hx
        have hA : ¬ (x + 1 ≤ x ∧ x < x + 1 + (n : Int)) := by omega
        have hB : x ≤ x ∧ x < x + ((n + 1 : Nat) : Int) := by push_cast; omega
        simp only [hA, hB, and_self, if_true, if_false, setAt, sub_self, zero_add]
      · by_cases hin : j + 1 ≤ x ∧ x < j + 1 + (n : Int)
        · have hB : j ≤ x ∧ x < j + ((n + 1 : Nat) : Int) := by push_cast; omega
          simp only [hin, hB, and_self, if_true]
          congr 1
          omega
        · have hB : ¬ (j ≤ x ∧ x < j + ((n + 1 : Nat) : Int)) := by push_cast; omega
          simp only [hin, hB, if_false, setAt, hx]
    · intro x
      rw [h4 x]
      by_cases hx : x = j
      · subst hx
        have hA : ¬ (x + 1 ≤ x ∧ x < x + 1 + (n : Int)) := by omega
        have hB : x ≤ x ∧ x < x + ((n + 1 : Nat) : Int) := by push_cast; omega
        simp only [hA, hB, and_self, if_true, if_false, setAt, sub_self, zero_add]
      · by_cases hin : j + 1 ≤ x ∧ x < j + 1 + (n : Int)
        · have hB : j ≤ x ∧ x < j + ((n + 1 : Nat) : Int) := by push_cast; omega
          simp only [hin, hB, and_self, if_true]
          congr 1
          omega
        · have hB : ¬ (j ≤ x ∧ x < j + ((n + 1 : Nat) : Int)) := by push_cast; omega
          simp only [hin, hB, if_false, setAt, hx]

/-- The ID block when no following ID hit matches the primary's last ID hit on (channel
id, charge): the primary's hits stay, the following window's ID hits are written in
their order directly after them, and the ID count is the sum of the two counts. -/
theorem AddAftHits_ID_no_match (aft prim : rawtqinfo_common) (hn : 0 ≤ aft.nqisk_raw)
    (hno : ∀ k : Int, 0 ≤ k → k < aft.nqisk_raw →
      ¬ (aft.icabbf_raw k = prim.icabbf_raw (prim.nqisk_raw - 1) ∧
         aft.qbuf_raw k = prim.qbuf_raw (prim.nqisk_raw - 1))) :
    (AddAftHits_ID aft prim).nqisk_raw = prim.nqisk_raw + aft.nqisk_raw ∧
    ∀ x : Int,
      ((AddAftHits_ID aft prim).icabbf_raw x =
        if prim.nqisk_raw ≤ x ∧ x < prim.nqisk_raw + aft.nqisk_raw then
          aft.icabbf_raw (x - prim.nqisk_raw) else prim.icabbf_raw x) ∧
      ((AddAftHits_ID aft prim).qbuf_raw x =
        if prim.nqisk_raw ≤ x ∧ x < prim.nqisk_raw + aft.nqisk_raw then
          aft.qbuf_raw (x - prim.nqisk_raw) else prim.qbuf_raw x) ∧
      ((AddAftHits_ID aft prim).tbuf_raw x =
        if prim.nqisk_raw ≤ x ∧ x < prim.nqisk_raw + aft.nqisk_raw then
          aft.tbuf_raw (x - prim.nqisk_raw) else prim.tbuf_raw x) := by
  have hfuel : (0 : Int) + (aft.nqisk_raw.toNat : Int) = aft.nqisk_raw := by omega
  have hscan := scanOverlap_no_match aft.icabbf_raw aft.qbuf_raw aft.nqisk_raw
    prim.icabbf_raw prim.qbuf_raw (prim.nqisk_raw - 1) hno aft.nqisk_raw.toNat 0
    (le_refl 0) hfuel
  obtain ⟨c1, c2, c3, c4⟩ := copyHits_spec
    { t := aft.tbuf_raw, q := aft.qbuf_raw, icab := aft.icabbf_raw } aft.nqisk_raw
    aft.nqisk_raw.toNat 0 prim.nqisk_raw
    { t := prim.tbuf_raw, q := prim.qbuf_raw, icab := prim.icabbf_raw } hfuel
  have htn : (aft.nqisk_raw.toNat : Int) = aft.nqisk_raw := by omega
  unfold AddAftHits_ID
  simp only [hscan, ne_eq, not_true_eq_false, if_false]
  refine ⟨by rw [c1, htn], ?_⟩
  intro x
  refine ⟨?_, ?_, ?_⟩
  · rw [c4 x, htn]; simp
  · rw [c3 x, htn]; simp
  · rw [c2 x, htn]; simp


/-! ## Claims on `AddAftHits` -/

/-- C2, the code at the failing input: a primary window with one ID hit and one OD hit,
merged with a following window whose ID and OD counts are both zero. The ID count stays 1
and the arrays are kept, but the OD count drops from 1 to 0, so the merge is not a no-op. -/
theorem C2_AddAftHits_empty_following_zeroes_outer_count :
    (windowOf [] []).nqisk_raw = 0 ∧ (windowOf [] []).nhitaz_raw = 0 ∧
    (windowOf [(1, 1, 10)] [(5, 5, 50)]).nhitaz_raw = 1 ∧
    (AddAftHits (windowOf [] []) (windowOf [(1, 1, 10)] [(5, 5, 50)])).nqisk_raw = 1 ∧
    (AddAftHits (windowOf [] []) (windowOf [(1, 1, 10)] [(5, 5, 50)])).icabaz_raw 0 = 5 ∧
    (AddAftHits (windowOf [] []) (windowOf [(1, 1, 10)] [(5, 5, 50)])).nhitaz_raw = 0 := by
  decide

/-- C3, the code at the failing input: the OD block on a primary window with three OD hits
and a following window with one OD hit that matches none of them. The scan ends at
`k = 1`; line 394 then starts the copy at index 1, so the primary's second OD hit is
overwritten and the OD count becomes 2, not 3 + 1. -/
theorem C3_AddAftHits_outer_no_match_overwrites :
    (windowOf [(1, 1, 10)] [(1, 1, 10), (2, 2, 20), (3, 3, 30)]).nhitaz_raw = 3 ∧
    (windowOf [] [(9, 9, 90)]).nhitaz_raw = 1 ∧
    (AddAftHits (windowOf [] [(9, 9, 90)])
      (windowOf [(1, 1, 10)] [(1, 1, 10), (2, 2, 20), (3, 3, 30)])).nhitaz_raw = 2 ∧
    (AddAftHits (windowOf [] [(9, 9, 90)])
      (windowOf [(1, 1, 10)] [(1, 1, 10), (2, 2, 20), (3, 3, 30)])).icabaz_raw 1 = 9 ∧
    (AddAftHits (windowOf [] [(9, 9, 90)])
      (windowOf [(1, 1, 10)] [(1, 1, 10), (2, 2, 20), (3, 3, 30)])).icabaz_raw 3 = 0 := by
  decide

/-- C4, the code at the failing input: a primary window with ID hits `(1, 1, 10)`,
`(2, 2, 20)` and OD hit `(7, 7, 70)`, and a following window whose only ID hit `(2, 2, 5)`
matches the primary's last ID hit on channel and charge, with OD hit `(8, 8, 80)`. The
match is at offset `k = 0`; line 371 starts the copy at index 0 of the primary arrays, so
the primary's first hit is overwritten by the following hit and the ID count drops from
2 to 1. -/
theorem C4_AddAftHits_match_overwrites_primary :
    (windowOf [(1, 1, 10), (2, 2, 20)] [(7, 7, 70)]).nqisk_raw = 2 ∧
    (windowOf [(1, 1, 10), (2, 2, 20)] [(7, 7, 70)]).icabbf_raw 0 = 1 ∧
    (windowOf [(1, 1, 10), (2, 2, 20)] [(7, 7, 70)]).tbuf_raw 0 = 10 ∧
    (AddAftHits (windowOf [(2, 2, 5)] [(8, 8, 80)])
      (windowOf [(1, 1, 10), (2, 2, 20)] [(7, 7, 70)])).nqisk_raw = 1 ∧
    (AddAftHits (windowOf [(2, 2, 5)] [(8, 8, 80)])
      (windowOf [(1, 1, 10), (2, 2, 20)] [(7, 7, 70)])).icabbf_raw 0 = 2 ∧
    (AddAftHits (windowOf [(2, 2, 5)] [(8, 8, 80)])
      (windowOf [(1, 1, 10), (2, 2, 20)] [(7, 7, 70)])).tbuf_raw 0 = 5 := by
  decide

/-! ## The reconstruction pipeline: stage lemmas -/

/-- The literal `0.4` is the rational `2/5`. -/
theorem goodnessCut_eq : goodnessCut = 2 / 5 := by
  rw [← Rat.num_div_den goodnessCut]
  norm_num [goodnessCut]

/-- The literal `0.3` is the rational `3/10`. -/
theorem bffCut_eq : bffCut = 3 / 10 := by
  rw [← Rat.num_div_den bffCut]
  norm_num [bffCut]

/-- The fast-fit stage goes on exactly when the selector's value is not zero. -/
theorem fastFit_fst (R : Routines) (mu : skroot_mu_common) (calls : List Call) :
    (fastFit R mu calls).1 = decide (R.mfmuselect_muyn ≠ 0) := by
  unfold fastFit
  by_cases h : R.mfmuselect_muyn > 0 ∨ R.mfmuselect_muyn < 0
  · have h0 : R.mfmuselect_muyn ≠ 0 := by omega
    simp [h, h0]
  · have h0 : R.mfmuselect_muyn = 0 := by omega
    simp [h0]

/-- After the fast-fit stage on a positive selector value: flag 0, `muyn` the selector's
value, and the calls `fix_maxqisk_`, `mfmuselect_`. -/
theorem fastFit_pos (R : Routines) (mu : skroot_mu_common) (calls : List Call)
    (h : 0 < R.mfmuselect_muyn) :
    (fastFit R mu calls).2.1.mufast_flag = 0 ∧
    (fastFit R mu calls).2.1.muyn = R.mfmuselect_muyn ∧
    (fastFit R mu calls).2.2 = calls ++ [Call.fix_maxqisk, Call.mfmuselect] := by
  have h0 : R.mfmuselect_muyn ≠ 0 := by omega
  have h1 : R.mfmuselect_muyn > 0 := h
  unfold fastFit
  simp [h1, h0]

/-- After the fast-fit stage on a negative selector value: flag 1, `muyn` the selector's
value, and the calls `fix_maxqisk_`, `mfmuselect_`, `mffastfast_`. -/
theorem fastFit_neg (R : Routines) (mu : skroot_mu_common) (calls : List Call)
    (h : R.mfmuselect_muyn < 0) :
    (fastFit R mu calls).2.1.mufast_flag = 1 ∧
    (fastFit R mu calls).2.1.muyn = R.mfmuselect_muyn ∧
    (fastFit R mu calls).2.2 = calls ++ [Call.fix_maxqisk, Call.mfmuselect, Call.mffastfast] := by
  have h0 : R.mfmuselect_muyn ≠ 0 := by omega
  have h1 : ¬ R.mfmuselect_muyn > 0 := by omega
  unfold fastFit
  simp [h, h1, h0]

/-- The loop body leaves the track count. -/
theorem dedxBody_ntrack (R : Routines) (d : Int → ℚ) (t : Int) (e : Int → ℚ)
    (mu : skroot_mu_common) :
    (dedxBody R d t e mu).2.1.muboy_ntrack = mu.muboy_ntrack := rfl

/-- The loop body puts the track index in `muinfo[7]`. -/
theorem dedxBody_muinfo7 (R : Routines) (d : Int → ℚ) (t : Int) (e : Int → ℚ)
    (mu : skroot_mu_common) :
    (dedxBody R d t e mu).2.1.muinfo 7 = (t : ℚ) := by
  simp [dedxBody, setAt]

/-- The track indices of the results pushed by the track loop: when `fuel` turns remain
from track `t` on, the loop appends results with track indices `t, t+1, ..., t+fuel-1`. -/
theorem dedxLoop_tracks (R : Routines) (d : Int → ℚ) :
    ∀ (fuel : Nat) (t : Int) (e : Int → ℚ) (s : RecoState),
      t + fuel = s.skroot_mu_.muboy_ntrack →
      (dedxLoop R d fuel t e s).reco_muons.map (fun m => m.muinfo 7) =
        s.reco_muons.map (fun m => m.muinfo 7) ++
          (List.range fuel).map (fun (i : Nat) => (((t + (i : Int)) : Int) : ℚ)) := by
  intro fuel
  induction fuel with
  | zero => intro t e s _; simp [dedxLoop]
  | succ n ih =>
    intro t e s h
    have hlt : t < s.skroot_mu_.muboy_ntrack := by push_cast at h; omega
    have hstep := ih (t + 1) (dedxBody R d t e s.skroot_mu_).1
      { skroot_mu_ := (dedxBody R d t e s.skroot_mu_).2.1,
        reco_muons := s.reco_muons ++ [(dedxBody R d t e s.skroot_mu_).2.1],
        calls := s.calls ++ (dedxBody R d t e s.skroot_mu_).2.2 }
      (by rw [dedxBody_ntrack]; push_cast at h; omega)
    rw [dedxLoop]
    simp only [hlt, if_true]
    rw [hstep]
    simp only [List.map_append, List.map_cons, List.map_nil, dedxBody_muinfo7,
      List.append_assoc, List.singleton_append]
    congr 1
    rw [List.range_succ_eq_map]
    simp only [List.map_cons, List.map_map]
    congr 1
    · simp
    · apply List.map_congr_left
      intro i _
      simp only [Function.comp]
      push_cast
      ring

/-- A property of `skroot_mu_` that the loop body keeps holds, after the track loop, of
the common block and of every result the loop pushed. -/
theorem dedxLoop_inv (R : Routines) (d : Int → ℚ) (P : skroot_mu_common → Prop)
    (hP : ∀ (t : Int) (e : Int → ℚ) (mu : skroot_mu_common),
      P mu → P (dedxBody R d t e mu).2.1) :
    ∀ (fuel : Nat) (t : Int) (e : Int → ℚ) (s : RecoState),
      P s.skroot_mu_ → (∀ m ∈ s.reco_muons, P m) →
      P (dedxLoop R d fuel t e s).skroot_mu_ ∧
        ∀ m ∈ (dedxLoop R d fuel t e s).reco_muons, P m := by
  intro fuel
  induction fuel with
  | zero => intro t e s h1 h2; exact ⟨h1, h2⟩
  | succ n ih =>
    intro t e s h1 h2
    rw [dedxLoop]
    by_cases hlt : t < s.skroot_mu_.muboy_ntrack
    · simp only [hlt, if_true]
      apply ih
      · exact hP t e _ h1
      · intro m hm
        rcases List.mem_append.mp hm with hm | hm
        · exact h2 m hm
        · rw [List.mem_singleton] at hm
          rw [hm]
          exact hP t e _ h1
    · simp only [hlt, if_false]
      exact ⟨h1, h2⟩

/-- The track loop makes no call that a predicate false on the energy-loss calls counts. -/
theorem dedxLoop_countP (R : Routines) (d : Int → ℚ) (f : Call → Bool)
    (hf1 : ∀ (e x : Int → ℚ), f (Call.makededx e x) = false)
    (hf2 : ∀ (e x : Int → ℚ) (l : ℚ), f (Call.makededx_intg e x l) = false) :
    ∀ (fuel : Nat) (t : Int) (e : Int → ℚ) (s : RecoState),
      (dedxLoop R d fuel t e s).calls.countP f = s.calls.countP f := by
  intro fuel
  induction fuel with
  | zero => intro t e s; rfl
  | succ n ih =>
    intro t e s
    rw [dedxLoop]
    by_cases hlt : t < s.skroot_mu_.muboy_ntrack
    · simp only [hlt, if_true]
      rw [ih]
      simp [dedxBody, List.countP_append, List.countP_cons, hf1, hf2]
    · simp only [hlt, if_false]

/-- The track loop leaves the track count of the common block. -/
theorem dedxLoop_ntrack (R : Routines) (d : Int → ℚ) :
    ∀ (fuel : Nat) (t : Int) (e : Int → ℚ) (s : RecoState),
      (dedxLoop R d fuel t e s).skroot_mu_.muboy_ntrack = s.skroot_mu_.muboy_ntrack := by
  intro fuel
  induction fuel with
  | zero => intro t e s; rfl
  | succ n ih =>
    intro t e s
    rw [dedxLoop]
    by_cases hlt : t < s.skroot_mu_.muboy_ntrack
    · simp only [hlt, if_true]
      rw [ih, dedxBody_ntrack]
    · simp only [hlt, if_false]

/-- The condition of line 534 as a proposition on the outputs of the multi-track fit. -/
theorem bffGate_iff (noBFF tryBFF : Bool) (mu : skroot_mu_common) :
    bffGate noBFF tryBFF mu = true ↔
      (noBFF = false ∧ tryBFF = true ∧ mu.muboy_status = 1 ∧ mu.muboy_goodness < 2 / 5) := by
  simp [bffGate, goodnessCut_eq, and_assoc]

/-- The stages before the track loop report the track count of the multi-track fit. -/
theorem fitStages_ntrack (noBFF tryBFF : Bool) (R : Routines) (mu : skroot_mu_common)
    (calls : List Call) :
    (fitStages noBFF tryBFF R mu calls).2.1.muboy_ntrack = R.muboy_ntrack := by
  unfold fitStages precisionFit
  simp only [muboyFit]
  split_ifs <;> rfl

/-- The stages before the track loop leave the fallback flag. -/
theorem fitStages_flag (noBFF tryBFF : Bool) (R : Routines) (mu : skroot_mu_common)
    (calls : List Call) :
    (fitStages noBFF tryBFF R mu calls).2.1.mufast_flag = mu.mufast_flag := by
  unfold fitStages precisionFit
  simp only [muboyFit]
  split_ifs <;> rfl

/-- The stages before the track loop make no call of `mffastfast_`. -/
theorem fitStages_countP_fast (noBFF tryBFF : Bool) (R : Routines) (mu : skroot_mu_common)
    (calls : List Call) :
    (fitStages noBFF tryBFF R mu calls).2.2.countP Call.isMffastfast =
      calls.countP Call.isMffastfast := by
  unfold fitStages precisionFit
  simp only [muboyFit]
  split_ifs <;> simp [List.countP_append, Call.isMffastfast]

/-- On a non-zero selector value the call returns `true` with the state the track loop
leaves, started on an empty result vector. -/
theorem ReconstructNextMuon_nonzero (noBFF : Bool) (vars_tryBFF : Option Bool) (R : Routines)
    (s : RecoState) (h : R.mfmuselect_muyn ≠ 0) :
    ReconstructNextMuon noBFF vars_tryBFF R s =
      (true, dedxLoop R
        (fitStages noBFF (vars_tryBFF.getD false) R (fastFit R s.skroot_mu_ s.calls).2.1
          (fastFit R s.skroot_mu_ s.calls).2.2).1.mudir
        R.muboy_ntrack.toNat 0
        (fitStages noBFF (vars_tryBFF.getD false) R (fastFit R s.skroot_mu_ s.calls).2.1
          (fastFit R s.skroot_mu_ s.calls).2.2).1.muentry
        { skroot_mu_ := (fitStages noBFF (vars_tryBFF.getD false) R
            (fastFit R s.skroot_mu_ s.calls).2.1 (fastFit R s.skroot_mu_ s.calls).2.2).2.1
          reco_muons := []
          calls := (fitStages noBFF (vars_tryBFF.getD false) R
            (fastFit R s.skroot_mu_ s.calls).2.1 (fastFit R s.skroot_mu_ s.calls).2.2).2.2 }) := by
  unfold ReconstructNextMuon
  simp only [fastFit_fst, h, ne_eq, not_false_eq_true, decide_True, if_true, fitStages_ntrack]

/-- On a zero selector value the call returns `false` with an empty result vector. -/
theorem ReconstructNextMuon_zero (noBFF : Bool) (vars_tryBFF : Option Bool) (R : Routines)
    (s : RecoState) (h : R.mfmuselect_muyn = 0) :
    (ReconstructNextMuon noBFF vars_tryBFF R s).1 = false ∧
      (ReconstructNextMuon noBFF vars_tryBFF R s).2.reco_muons = [] := by
  unfold ReconstructNextMuon
  simp [fastFit_fst, h]

/-! ## Claims on `ReconstructNextMuon` -/

/-- C5: `ReconstructNextMuon` returns `false` exactly when `mfmuselect_` returns zero, and
then its result vector is empty. When the selector's value is not zero it returns `true`
and the result vector, whatever an earlier call left in it, has as many elements as the
track count `muboy_ntrack` reported by `muboy_zbs_` (none for a count of zero or below),
the `i`-th element carrying track index `i` in `muinfo[7]`. -/
theorem C5_ReconstructNextMuon_fails_iff_zero_and_counts (noBFF : Bool)
    (vars_tryBFF : Option Bool) (R : Routines) (s : RecoState) :
    ((ReconstructNextMuon noBFF vars_tryBFF R s).1 = false ↔ R.mfmuselect_muyn = 0) ∧
    (R.mfmuselect_muyn = 0 → (ReconstructNextMuon noBFF vars_tryBFF R s).2.reco_muons = []) ∧
    (R.mfmuselect_muyn ≠ 0 →
      (ReconstructNextMuon noBFF vars_tryBFF R s).1 = true ∧
      (ReconstructNextMuon noBFF vars_tryBFF R s).2.reco_muons.length = R.muboy_ntrack.toNat ∧
      (0 ≤ R.muboy_ntrack →
        ((ReconstructNextMuon noBFF vars_tryBFF R s).2.reco_muons.length : Int)
          = R.muboy_ntrack) ∧
      (ReconstructNextMuon noBFF vars_tryBFF R s).2.reco_muons.map (fun m => m.muinfo 7) =
        (List.range R.muboy_ntrack.toNat).map (fun (i : Nat) => (i : ℚ))) := by
  have hmap : R.mfmuselect_muyn ≠ 0 →
      (ReconstructNextMuon noBFF vars_tryBFF R s).2.reco_muons.map (fun m => m.muinfo 7) =
        (List.range R.muboy_ntrack.toNat).map (fun (i : Nat) => (i : ℚ)) := by
    intro h
    rw [ReconstructNextMuon_nonzero noBFF vars_tryBFF R s h]
    by_cases hn : 0 ≤ R.muboy_ntrack
    · rw [dedxLoop_tracks]
      · simp
      · simp only [fitStages_ntrack]
        omega
    · have h0 : R.muboy_ntrack.toNat = 0 := by omega
      simp [h0, dedxLoop]
  have hlen : R.mfmuselect_muyn ≠ 0 →
      (ReconstructNextMuon noBFF vars_tryBFF R s).2.reco_muons.length = R.muboy_ntrack.toNat := by
    intro h
    have := congrArg List.length (hmap h)
    simpa using this
  refine ⟨?_, fun h => (ReconstructNextMuon_zero noBFF vars_tryBFF R s h).2, ?_⟩
  · constructor
    · intro hf
      by_contra h
      rw [ReconstructNextMuon_nonzero noBFF vars_tryBFF R s h] at hf
      exact Bool.noConfusion hf
    · intro h
      exact (ReconstructNextMuon_zero noBFF vars_tryBFF R s h).1
  · intro h
    refine ⟨?_, hlen h, ?_, hmap h⟩
    · rw [ReconstructNextMuon_nonzero noBFF vars_tryBFF R s h]
    · intro hn
      rw [hlen h]
      omega

/-- C5 at a concrete input: selector value 1, track count 2, and a stale result left in
the vector by an earlier call; the call returns `true` with two results, of track indices
0 and 1. -/
theorem C5_witness :
    (ReconstructNextMuon false none (routinesOf 1 1 2 1 0) recoStale).1 = true ∧
    (ReconstructNextMuon false none (routinesOf 1 1 2 1 0) recoStale).2.reco_muons.length
      = (2 : Int).toNat ∧
    (0 ≤ (2 : Int) →
      ((ReconstructNextMuon false none (routinesOf 1 1 2 1 0) recoStale).2.reco_muons.length
        : Int) = 2) ∧
    (ReconstructNextMuon false none (routinesOf 1 1 2 1 0) recoStale).2.reco_muons.map
        (fun m => m.muinfo 7) = (List.range (2 : Int).toNat).map (fun (i : Nat) => (i : ℚ)) :=
  (C5_ReconstructNextMuon_fails_iff_zero_and_counts false none (routinesOf 1 1 2 1 0)
    recoStale).2.2 (by decide)

/-- C6: when `mfmuselect_` returns a positive value the call succeeds, every emitted
result (and the common block) has `mufast_flag = 0`, and `mffastfast_` is not called; when
it returns a negative value the call succeeds, every emitted result (and the common
block) has `mufast_flag = 1`, and `mffastfast_` is called exactly once. -/
theorem C6_ReconstructNextMuon_fallback_flag (noBFF : Bool) (vars_tryBFF : Option Bool)
    (R : Routines) (s : RecoState) :
    (0 < R.mfmuselect_muyn →
      (ReconstructNextMuon noBFF vars_tryBFF R s).1 = true ∧
      (ReconstructNextMuon noBFF vars_tryBFF R s).2.skroot_mu_.mufast_flag = 0 ∧
      (∀ m ∈ (ReconstructNextMuon noBFF vars_tryBFF R s).2.reco_muons, m.mufast_flag = 0) ∧
      (ReconstructNextMuon noBFF vars_tryBFF R s).2.calls.countP Call.isMffastfast =
        s.calls.countP Call.isMffastfast) ∧
    (R.mfmuselect_muyn < 0 →
      (ReconstructNextMuon noBFF vars_tryBFF R s).1 = true ∧
      (ReconstructNextMuon noBFF vars_tryBFF R s).2.skroot_mu_.mufast_flag = 1 ∧
      (∀ m ∈ (ReconstructNextMuon noBFF vars_tryBFF R s).2.reco_muons, m.mufast_flag = 1) ∧
      (ReconstructNextMuon noBFF vars_tryBFF R s).2.calls.countP Call.isMffastfast =
        s.calls.countP Call.isMffastfast + 1) := by
  constructor
  · intro h
    have h0 : R.mfmuselect_muyn ≠ 0 := by omega
    rw [ReconstructNextMuon_nonzero noBFF vars_tryBFF R s h0]
    have hinv := dedxLoop_inv R
      (fitStages noBFF (vars_tryBFF.getD false) R (fastFit R s.skroot_mu_ s.calls).2.1
        (fastFit R s.skroot_mu_ s.calls).2.2).1.mudir
      (fun m => m.mufast_flag = 0) (fun _ _ _ hm => hm) R.muboy_ntrack.toNat 0
      (fitStages noBFF (vars_tryBFF.getD false) R (fastFit R s.skroot_mu_ s.calls).2.1
        (fastFit R s.skroot_mu_ s.calls).2.2).1.muentry
      { skroot_mu_ := (fitStages noBFF (vars_tryBFF.getD false) R
          (fastFit R s.skroot_mu_ s.calls).2.1 (fastFit R s.skroot_mu_ s.calls).2.2).2.1
        reco_muons := []
        calls := (fitStages noBFF (vars_tryBFF.getD false) R
          (fastFit R s.skroot_mu_ s.calls).2.1 (fastFit R s.skroot_mu_ s.calls).2.2).2.2 }
      (by simp only [fitStages_flag]; exact (fastFit_pos R _ _ h).1) (by simp)
    refine ⟨rfl, hinv.1, hinv.2, ?_⟩
    rw [dedxLoop_countP R _ Call.isMffastfast (fun _ _ => rfl) (fun _ _ _ => rfl)]
    simp only [fitStages_countP_fast, (fastFit_pos R _ _ h).2.2]
    simp [List.countP_append, Call.isMffastfast]
  · intro h
    have h0 : R.mfmuselect_muyn ≠ 0 := by omega
    rw [ReconstructNextMuon_nonzero noBFF vars_tryBFF R s h0]
    have hinv := dedxLoop_inv R
      (fitStages noBFF (vars_tryBFF.getD false) R (fastFit R s.skroot_mu_ s.calls).2.1
        (fastFit R s.skroot_mu_ s.calls).2.2).1.mudir
      (fun m => m.mufast_flag = 1) (fun _ _ _ hm => hm) R.muboy_ntrack.toNat 0
      (fitStages noBFF (vars_tryBFF.getD false) R (fastFit R s.skroot_mu_ s.calls).2.1
        (fastFit R s.skroot_mu_ s.calls).2.2).1.muentry
      { skroot_mu_ := (fitStages noBFF (vars_tryBFF.getD false) R
          (fastFit R s.skroot_mu_ s.calls).2.1 (fastFit R s.skroot_mu_ s.calls).2.2).2.1
        reco_muons := []
        calls := (fitStages noBFF (vars_tryBFF.getD false) R
          (fastFit R s.skroot_mu_ s.calls).2.1 (fastFit R s.skroot_mu_ s.calls).2.2).2.2 }
      (by simp only [fitStages_flag]; exact (fastFit_neg R _ _ h).1) (by simp)
    refine ⟨rfl, hinv.1, hinv.2, ?_⟩
    rw [dedxLoop_countP R _ Call.isMffastfast (fun _ _ => rfl) (fun _ _ _ => rfl)]
    simp only [fitStages_countP_fast, (fastFit_neg R _ _ h).2.2]
    simp [List.countP_append, Call.isMffastfast]

/-- C6 at concrete inputs: with selector value `-1` and two tracks, both results carry
`mufast_flag = 1` and `mffastfast_` was called once; with selector value `1`, both carry
`mufast_flag = 0` and it was not called. -/
theorem C6_witness :
    ((ReconstructNextMuon false none (routinesOf (-1) 1 2 1 0) recoStale).2.reco_muons.length = 2 ∧
      (∀ m ∈ (ReconstructNextMuon false none (routinesOf (-1) 1 2 1 0) recoStale).2.reco_muons,
        m.mufast_flag = 1) ∧
      (ReconstructNextMuon false none (routinesOf (-1) 1 2 1 0) recoStale).2.calls.countP
        Call.isMffastfast = recoStale.calls.countP Call.isMffastfast + 1) ∧
    ((∀ m ∈ (ReconstructNextMuon false none (routinesOf 1 1 2 1 0) recoStale).2.reco_muons,
        m.mufast_flag = 0) ∧
      (ReconstructNextMuon false none (routinesOf 1 1 2 1 0) recoStale).2.calls.countP
        Call.isMffastfast = recoStale.calls.countP Call.isMffastfast) :=
  ⟨⟨by decide,
    ((C6_ReconstructNextMuon_fallback_flag false none (routinesOf (-1) 1 2 1 0) recoStale).2
      (by decide)).2.2.1,
    ((C6_ReconstructNextMuon_fallback_flag false none (routinesOf (-1) 1 2 1 0) recoStale).2
      (by decide)).2.2.2⟩,
   ⟨((C6_ReconstructNextMuon_fallback_flag false none (routinesOf 1 1 2 1 0) recoStale).1
      (by decide)).2.2.1,
    ((C6_ReconstructNextMuon_fallback_flag false none (routinesOf 1 1 2 1 0) recoStale).1
      (by decide)).2.2.2⟩⟩

/-! ## The precision-fit stage -/

/-- The condition of line 534, evaluated after the multi-track fit, is the first four
conditions. -/
theorem bffGate_muboyFit (noBFF : Bool) (vars_tryBFF : Option Bool) (R : Routines)
    (mu : skroot_mu_common) (calls : List Call) :
    bffGate noBFF (vars_tryBFF.getD false) (muboyFit R mu calls).1 = true ↔
      bffEnabled noBFF vars_tryBFF R := by
  rw [bffGate_iff]
  rfl

/-- The stages before the track loop when all five conditions hold: `newmufit_` is called,
`muinfo[6]` is 1, and the locals are the overridden ones. -/
theorem fitStages_accepted (noBFF : Bool) (vars_tryBFF : Option Bool) (R : Routines)
    (mu : skroot_mu_common) (calls : List Call) (h : bffAccepted noBFF vars_tryBFF R) :
    (fitStages noBFF (vars_tryBFF.getD false) R mu calls).2.1.muinfo 6 = 1 ∧
    (fitStages noBFF (vars_tryBFF.getD false) R mu calls).2.2 =
      calls ++ [Call.muboy_zbs, Call.newmufit] ∧
    (fitStages noBFF (vars_tryBFF.getD false) R mu calls).1 =
      overrideLocals (fitStages noBFF (vars_tryBFF.getD false) R mu calls).2.1
        (initLocals R.muboy_muentry
          (fitStages noBFF (vars_tryBFF.getD false) R mu calls).2.1) := by
  have hg := (bffGate_muboyFit noBFF vars_tryBFF R mu calls).2 h.1
  have hb : R.newmufit_goodness > bffCut := by rw [bffCut_eq]; exact h.2
  unfold fitStages precisionFit
  simp only [hg, if_true, hb]
  refine ⟨by simp [setAt], by simp [muboyFit], rfl⟩

/-- The stages before the track loop when the first four conditions hold and the
precision fit's goodness is not above 0.3: `newmufit_` is called, `muinfo[6]` is 0, and
the locals are not overridden. -/
theorem fitStages_rejected (noBFF : Bool) (vars_tryBFF : Option Bool) (R : Routines)
    (mu : skroot_mu_common) (calls : List Call) (h : bffEnabled noBFF vars_tryBFF R)
    (hb : ¬ 3 / 10 < R.newmufit_goodness) :
    (fitStages noBFF (vars_tryBFF.getD false) R mu calls).2.1.muinfo 6 = 0 ∧
    (fitStages noBFF (vars_tryBFF.getD false) R mu calls).2.2 =
      calls ++ [Call.muboy_zbs, Call.newmufit] ∧
    (fitStages noBFF (vars_tryBFF.getD false) R mu calls).1 =
      initLocals R.muboy_muentry
        (fitStages noBFF (vars_tryBFF.getD false) R mu calls).2.1 := by
  have hg := (bffGate_muboyFit noBFF vars_tryBFF R mu calls).2 h
  have hb2 : ¬ R.newmufit_goodness > bffCut := by rw [bffCut_eq]; exact hb
  unfold fitStages precisionFit
  simp only [hg, if_true, hb2, if_false]
  refine ⟨by simp [setAt], by simp [muboyFit], rfl⟩

/-- The stages before the track loop when one of the first four conditions fails:
`newmufit_` is not called, `muinfo[6]` is 0, the precision-fit fields are zero, and the
locals are not overridden. -/
theorem fitStages_disabled (noBFF : Bool) (vars_tryBFF : Option Bool) (R : Routines)
    (mu : skroot_mu_common) (calls : List Call) (h : ¬ bffEnabled noBFF vars_tryBFF R) :
    (fitStages noBFF (vars_tryBFF.getD false) R mu calls).2.1.muinfo 6 = 0 ∧
    (fitStages noBFF (vars_tryBFF.getD false) R mu calls).2.2 = calls ++ [Call.muboy_zbs] ∧
    (fitStages noBFF (vars_tryBFF.getD false) R mu calls).1 =
      initLocals R.muboy_muentry
        (fitStages noBFF (vars_tryBFF.getD false) R mu calls).2.1 ∧
    (fitStages noBFF (vars_tryBFF.getD false) R mu calls).2.1.mubff_goodness = 0 ∧
    (∀ j : Int, 0 ≤ j → j < 3 →
      (fitStages noBFF (vars_tryBFF.getD false) R mu calls).2.1.mubff_entpos j = 0 ∧
      (fitStages noBFF (vars_tryBFF.getD false) R mu calls).2.1.mubff_dir j = 0) := by
  have hg : ¬ bffGate noBFF (vars_tryBFF.getD false) (muboyFit R mu calls).1 = true :=
    fun hg => h ((bffGate_muboyFit noBFF vars_tryBFF R mu calls).1 hg)
  unfold fitStages precisionFit
  simp only [hg, if_false]
  refine ⟨by simp [setAt], by simp [muboyFit], rfl, rfl, ?_⟩
  intro j h0 h3
  have hj : j = 0 ∨ j = 1 ∨ j = 2 := by omega
  rcases hj with hj | hj | hj <;> subst hj <;> simp [setAt]

/-- In the accepted case the overridden locals hold the precision fit's entry position and
unit direction in components 0, 1, 2; component 3 of the entry (the time) is kept. -/
theorem fitStages_accepted_values (noBFF : Bool) (vars_tryBFF : Option Bool) (R : Routines)
    (mu : skroot_mu_common) (calls : List Call) (h : bffAccepted noBFF vars_tryBFF R) :
    (∀ j : Int, 0 ≤ j → j < 3 →
      (fitStages noBFF (vars_tryBFF.getD false) R mu calls).1.muentry j = R.newmufit_bffpos j ∧
      (fitStages noBFF (vars_tryBFF.getD false) R mu calls).1.mudir j = R.unit_dir j) ∧
    (fitStages noBFF (vars_tryBFF.getD false) R mu calls).1.muentry 3 =
      (initLocals R.muboy_muentry
        (fitStages noBFF (vars_tryBFF.getD false) R mu calls).2.1).muentry 3 := by
  have hg := (bffGate_muboyFit noBFF vars_tryBFF R mu calls).2 h.1
  have hb : R.newmufit_goodness > bffCut := by rw [bffCut_eq]; exact h.2
  unfold fitStages precisionFit
  simp only [hg, if_true, hb]
  constructor
  · intro j h0 h3
    have hj : j = 0 ∨ j = 1 ∨ j = 2 := by omega
    rcases hj with hj | hj | hj <;> subst hj <;> simp [overrideLocals, setAt]
  · simp [overrideLocals, initLocals, setAt]

/-- The calls of the track loop extend the calls made before it. -/
theorem dedxLoop_calls_prefix (R : Routines) (d : Int → ℚ) :
    ∀ (fuel : Nat) (t : Int) (e : Int → ℚ) (s : RecoState),
      ∃ rest, (dedxLoop R d fuel t e s).calls = s.calls ++ rest := by
  intro fuel
  induction fuel with
  | zero => intro t e s; exact ⟨[], by simp [dedxLoop]⟩
  | succ n ih =>
    intro t e s
    rw [dedxLoop]
    by_cases hlt : t < s.skroot_mu_.muboy_ntrack
    · simp only [hlt, if_true]
      obtain ⟨rest, hrest⟩ := ih (t + 1) (dedxBody R d t e s.skroot_mu_).1
        { skroot_mu_ := (dedxBody R d t e s.skroot_mu_).2.1,
          reco_muons := s.reco_muons ++ [(dedxBody R d t e s.skroot_mu_).2.1],
          calls := s.calls ++ (dedxBody R d t e s.skroot_mu_).2.2 }
      exact ⟨(dedxBody R d t e s.skroot_mu_).2.2 ++ rest, by rw [hrest, List.append_assoc]⟩
    · simp only [hlt, if_false]
      exact ⟨[], by simp⟩

/-- With at least one track, the first call of the track loop is `makededx_` on the entry
point and direction the loop was started with. -/
theorem dedxLoop_calls_head (R : Routines) (d : Int → ℚ) (fuel : Nat) (e : Int → ℚ)
    (s : RecoState) (h : 0 < s.skroot_mu_.muboy_ntrack) :
    ∃ rest, (dedxLoop R d (fuel + 1) 0 e s).calls = s.calls ++ Call.makededx e d :: rest := by
  rw [dedxLoop]
  simp only [h, if_true]
  obtain ⟨rest, hrest⟩ := dedxLoop_calls_prefix R d fuel (0 + 1) (dedxBody R d 0 e s.skroot_mu_).1
    { skroot_mu_ := (dedxBody R d 0 e s.skroot_mu_).2.1,
      reco_muons := s.reco_muons ++ [(dedxBody R d 0 e s.skroot_mu_).2.1],
      calls := s.calls ++ (dedxBody R d 0 e s.skroot_mu_).2.2 }
  refine ⟨Call.makededx_intg e d s.skroot_mu_.muboy_length :: rest, ?_⟩
  rw [hrest]
  simp [dedxBody]

/-- Calls that are not `makededx_` are skipped by `firstDedx`. -/
theorem firstDedx_append (pre l : List Call) (h : firstDedx pre = none) :
    firstDedx (pre ++ l) = firstDedx l := by
  induction pre with
  | nil => rfl
  | cons c cs ih =>
    cases c <;> simp_all [firstDedx]

/-- The calls of the fast-fit stage on a non-zero selector value: none of them is
`makededx_` or `newmufit_`. -/
theorem fastFit_calls_shape (R : Routines) (mu : skroot_mu_common) (calls : List Call)
    (h : R.mfmuselect_muyn ≠ 0) :
    ∃ pre, (fastFit R mu calls).2.2 = calls ++ pre ∧ firstDedx pre = none ∧
      pre.countP Call.isNewmufit = 0 := by
  by_cases hp : 0 < R.mfmuselect_muyn
  · exact ⟨_, (fastFit_pos R mu calls hp).2.2, rfl, rfl⟩
  · have hn : R.mfmuselect_muyn < 0 := by omega
    exact ⟨_, (fastFit_neg R mu calls hn).2.2, rfl, rfl⟩

/-- The calls of the stages before the track loop: `muboy_zbs_`, then `newmufit_` exactly
when the first four conditions hold. -/
theorem fitStages_calls_shape (noBFF : Bool) (vars_tryBFF : Option Bool) (R : Routines)
    (mu : skroot_mu_common) (calls : List Call) :
    ∃ pre, (fitStages noBFF (vars_tryBFF.getD false) R mu calls).2.2 = calls ++ pre ∧
      firstDedx pre = none ∧
      (bffEnabled noBFF vars_tryBFF R → pre.countP Call.isNewmufit = 1) ∧
      (¬ bffEnabled noBFF vars_tryBFF R → pre.countP Call.isNewmufit = 0) := by
  by_cases hen : bffEnabled noBFF vars_tryBFF R
  · by_cases hb : 3 / 10 < R.newmufit_goodness
    · exact ⟨_, (fitStages_accepted noBFF vars_tryBFF R mu calls ⟨hen, hb⟩).2.1, rfl,
        fun _ => rfl, fun hne => absurd hen hne⟩
    · exact ⟨_, (fitStages_rejected noBFF vars_tryBFF R mu calls hen hb).2.1, rfl,
        fun _ => rfl, fun hne => absurd hen hne⟩
  · exact ⟨_, (fitStages_disabled noBFF vars_tryBFF R mu calls hen).2.1, rfl,
      fun h => absurd h hen, fun _ => rfl⟩

/-- A property of `skroot_mu_` that the loop body keeps and that holds before the track
loop holds, after a successful call, of the common block and of every emitted result. -/
theorem ReconstructNextMuon_inv (noBFF : Bool) (vars_tryBFF : Option Bool) (R : Routines)
    (s : RecoState) (P : skroot_mu_common → Prop)
    (hP : ∀ (d : Int → ℚ) (t : Int) (e : Int → ℚ) (mu : skroot_mu_common),
      P mu → P (dedxBody R d t e mu).2.1)
    (h : R.mfmuselect_muyn ≠ 0)
    (h0 : P (fitStages noBFF (vars_tryBFF.getD false) R (fastFit R s.skroot_mu_ s.calls).2.1
      (fastFit R s.skroot_mu_ s.calls).2.2).2.1) :
    P (ReconstructNextMuon noBFF vars_tryBFF R s).2.skroot_mu_ ∧
      ∀ m ∈ (ReconstructNextMuon noBFF vars_tryBFF R s).2.reco_muons, P m := by
  rw [ReconstructNextMuon_nonzero noBFF vars_tryBFF R s h]
  exact dedxLoop_inv R _ P (hP _) _ _ _ _ h0 (by simp)

/-- The number of `newmufit_` calls a successful call makes: one when the first four
conditions hold, none otherwise. -/
theorem ReconstructNextMuon_newmufit (noBFF : Bool) (vars_tryBFF : Option Bool)
    (R : Routines) (s : RecoState) (h : R.mfmuselect_muyn ≠ 0) :
    (bffEnabled noBFF vars_tryBFF R →
      (ReconstructNextMuon noBFF vars_tryBFF R s).2.calls.countP Call.isNewmufit =
        s.calls.countP Call.isNewmufit + 1) ∧
    (¬ bffEnabled noBFF vars_tryBFF R →
      (ReconstructNextMuon noBFF vars_tryBFF R s).2.calls.countP Call.isNewmufit =
        s.calls.countP Call.isNewmufit) := by
  rw [ReconstructNextMuon_nonzero noBFF vars_tryBFF R s h]
  rw [dedxLoop_countP R _ Call.isNewmufit (fun _ _ => rfl) (fun _ _ _ => rfl)]
  obtain ⟨pre1, h1, _, c1⟩ := fastFit_calls_shape R s.skroot_mu_ s.calls h
  obtain ⟨pre2, h2, _, c2, c3⟩ := fitStages_calls_shape noBFF vars_tryBFF R
    (fastFit R s.skroot_mu_ s.calls).2.1 (fastFit R s.skroot_mu_ s.calls).2.2
  rw [h2, List.countP_append, h1, List.countP_append, c1]
  constructor
  · intro hen; simp [c2 hen]
  · intro hen; simp [c3 hen]

/-- With at least one track, the first `makededx_` call a successful call makes is handed
the locals the stages before the track loop produced. -/
theorem ReconstructNextMuon_firstDedx (noBFF : Bool) (vars_tryBFF : Option Bool)
    (R : Routines) (s : RecoState) (h : R.mfmuselect_muyn ≠ 0) (hn : 0 < R.muboy_ntrack) :
    firstDedx ((ReconstructNextMuon noBFF vars_tryBFF R s).2.calls.drop s.calls.length) =
      some ((fitStages noBFF (vars_tryBFF.getD false) R (fastFit R s.skroot_mu_ s.calls).2.1
              (fastFit R s.skroot_mu_ s.calls).2.2).1.muentry,
            (fitStages noBFF (vars_tryBFF.getD false) R (fastFit R s.skroot_mu_ s.calls).2.1
              (fastFit R s.skroot_mu_ s.calls).2.2).1.mudir) := by
  rw [ReconstructNextMuon_nonzero noBFF vars_tryBFF R s h]
  obtain ⟨k, hk⟩ : ∃ k, R.muboy_ntrack.toNat = k + 1 := ⟨R.muboy_ntrack.toNat - 1, by omega⟩
  rw [hk]
  obtain ⟨rest, hrest⟩ := dedxLoop_calls_head R
    (fitStages noBFF (vars_tryBFF.getD false) R (fastFit R s.skroot_mu_ s.calls).2.1
      (fastFit R s.skroot_mu_ s.calls).2.2).1.mudir k
    (fitStages noBFF (vars_tryBFF.getD false) R (fastFit R s.skroot_mu_ s.calls).2.1
      (fastFit R s.skroot_mu_ s.calls).2.2).1.muentry
    { skroot_mu_ := (fitStages noBFF (vars_tryBFF.getD false) R
        (fastFit R s.skroot_mu_ s.calls).2.1 (fastFit R s.skroot_mu_ s.calls).2.2).2.1
      reco_muons := []
      calls := (fitStages noBFF (vars_tryBFF.getD false) R
        (fastFit R s.skroot_mu_ s.calls).2.1 (fastFit R s.skroot_mu_ s.calls).2.2).2.2 }
    (by simp only [fitStages_ntrack]; exact hn)
  obtain ⟨pre1, h1, f1, _⟩ := fastFit_calls_shape R s.skroot_mu_ s.calls h
  obtain ⟨pre2, h2, f2, _, _⟩ := fitStages_calls_shape noBFF vars_tryBFF R
    (fastFit R s.skroot_mu_ s.calls).2.1 (fastFit R s.skroot_mu_ s.calls).2.2
  simp only [] at hrest ⊢
  rw [hrest, h2, h1, List.append_assoc, List.append_assoc, List.drop_left,
    firstDedx_append _ _ f1, firstDedx_append _ _ f2]
  rfl

/-- C7: on a call that reaches the precision-fit stage (selector value not zero), the
override is recorded, `muinfo[6] = 1` in the common block and in every emitted result,
exactly when all five conditions hold (`bffAccepted`), and `muinfo[6] = 0` otherwise.
`newmufit_` is called once when the first four conditions hold (`bffEnabled`) and not at
all when one of them fails, in which case the recorded precision-fit goodness, entry
point and direction are zero. With at least one track, the entry point and direction
handed to the first `makededx_` call are the precision fit's (components 0, 1, 2) when all
five conditions hold, and are the locals of lines 518-522, not overridden, otherwise. -/
theorem C7_ReconstructNextMuon_precision_override (noBFF : Bool) (vars_tryBFF : Option Bool)
    (R : Routines) (s : RecoState) (hsel : R.mfmuselect_muyn ≠ 0) :
    (((ReconstructNextMuon noBFF vars_tryBFF R s).2.skroot_mu_.muinfo 6 = 1 ↔
        bffAccepted noBFF vars_tryBFF R) ∧
      (¬ bffAccepted noBFF vars_tryBFF R →
        (ReconstructNextMuon noBFF vars_tryBFF R s).2.skroot_mu_.muinfo 6 = 0)) ∧
    (∀ m ∈ (ReconstructNextMuon noBFF vars_tryBFF R s).2.reco_muons,
      (m.muinfo 6 = 1 ↔ bffAccepted noBFF vars_tryBFF R) ∧
      (¬ bffAccepted noBFF vars_tryBFF R → m.muinfo 6 = 0)) ∧
    (bffEnabled noBFF vars_tryBFF R →
      (ReconstructNextMuon noBFF vars_tryBFF R s).2.calls.countP Call.isNewmufit =
        s.calls.countP Call.isNewmufit + 1) ∧
    (¬ bffEnabled noBFF vars_tryBFF R →
      (ReconstructNextMuon noBFF vars_tryBFF R s).2.calls.countP Call.isNewmufit =
        s.calls.countP Call.isNewmufit ∧
      ((ReconstructNextMuon noBFF vars_tryBFF R s).2.skroot_mu_.mubff_goodness = 0 ∧
        ∀ j : Int, 0 ≤ j → j < 3 →
          (ReconstructNextMuon noBFF vars_tryBFF R s).2.skroot_mu_.mubff_entpos j = 0 ∧
          (ReconstructNextMuon noBFF vars_tryBFF R s).2.skroot_mu_.mubff_dir j = 0) ∧
      (∀ m ∈ (ReconstructNextMuon noBFF vars_tryBFF R s).2.reco_muons,
        m.mubff_goodness = 0 ∧
        ∀ j : Int, 0 ≤ j → j < 3 → m.mubff_entpos j = 0 ∧ m.mubff_dir j = 0)) ∧
    (0 < R.muboy_ntrack →
      (bffAccepted noBFF vars_tryBFF R →
        ∃ e d, firstDedx ((ReconstructNextMuon noBFF vars_tryBFF R s).2.calls.drop
            s.calls.length) = some (e, d) ∧
          ∀ j : Int, 0 ≤ j → j < 3 → e j = R.newmufit_bffpos j ∧ d j = R.unit_dir j) ∧
      (¬ bffAccepted noBFF vars_tryBFF R →
        firstDedx ((ReconstructNextMuon noBFF vars_tryBFF R s).2.calls.drop s.calls.length) =
          some ((initLocals R.muboy_muentry
                  (ReconstructNextMuon noBFF vars_tryBFF R s).2.skroot_mu_).muentry,
                (initLocals R.muboy_muentry
                  (ReconstructNextMuon noBFF vars_tryBFF R s).2.skroot_mu_).mudir))) := by
  have hkeep6 : ∀ (d : Int → ℚ) (t : Int) (e : Int → ℚ) (mu : skroot_mu_common),
      (dedxBody R d t e mu).2.1.muinfo 6 = mu.muinfo 6 := by
    intro d t e mu
    simp [dedxBody, setAt]
  -- the flag, by cases on the five conditions
  have hflag : ∀ m : skroot_mu_common,
      (m = (ReconstructNextMuon noBFF vars_tryBFF R s).2.skroot_mu_ ∨
        m ∈ (ReconstructNextMuon noBFF vars_tryBFF R s).2.reco_muons) →
      (m.muinfo 6 = 1 ↔ bffAccepted noBFF vars_tryBFF R) ∧
      (¬ bffAccepted noBFF vars_tryBFF R → m.muinfo 6 = 0) := by
    intro m hm
    by_cases hacc : bffAccepted noBFF vars_tryBFF R
    · have h1 := ReconstructNextMuon_inv noBFF vars_tryBFF R s (fun m => m.muinfo 6 = 1)
        (fun d t e mu hmu => (hkeep6 d t e mu).trans hmu) hsel
        (fitStages_accepted noBFF vars_tryBFF R _ _ hacc).1
      have hm1 : m.muinfo 6 = 1 := by
        rcases hm with hm | hm
        · rw [hm]; exact h1.1
        · exact h1.2 m hm
      exact ⟨⟨fun _ => hacc, fun _ => hm1⟩, fun hne => absurd hacc hne⟩
    · have h0 : (fitStages noBFF (vars_tryBFF.getD false) R
          (fastFit R s.skroot_mu_ s.calls).2.1
          (fastFit R s.skroot_mu_ s.calls).2.2).2.1.muinfo 6 = 0 := by
        by_cases hen : bffEnabled noBFF vars_tryBFF R
        · exact (fitStages_rejected noBFF vars_tryBFF R _ _ hen
            (fun hb => hacc ⟨hen, hb⟩)).1
        · exact (fitStages_disabled noBFF vars_tryBFF R _ _ hen).1
      have h1 := ReconstructNextMuon_inv noBFF vars_tryBFF R s (fun m => m.muinfo 6 = 0)
        (fun d t e mu hmu => (hkeep6 d t e mu).trans hmu) hsel h0
      have hm0 : m.muinfo 6 = 0 := by
        rcases hm with hm | hm
        · rw [hm]; exact h1.1
        · exact h1.2 m hm
      refine ⟨⟨fun h => ?_, fun h => absurd h hacc⟩, fun _ => hm0⟩
      rw [hm0] at h
      exact absurd h (by norm_num)
  refine ⟨hflag _ (Or.inl rfl), fun m hm => hflag m (Or.inr hm),
    (ReconstructNextMuon_newmufit noBFF vars_tryBFF R s hsel).1, ?_, ?_⟩
  · intro hen
    have hz := ReconstructNextMuon_inv noBFF vars_tryBFF R s
      (fun m => m.mubff_goodness = 0 ∧
        ∀ j : Int, 0 ≤ j → j < 3 → m.mubff_entpos j = 0 ∧ m.mubff_dir j = 0)
      (fun d t e mu hmu => hmu) hsel
      ⟨(fitStages_disabled noBFF vars_tryBFF R _ _ hen).2.2.2.1,
        (fitStages_disabled noBFF vars_tryBFF R _ _ hen).2.2.2.2⟩
    exact ⟨(ReconstructNextMuon_newmufit noBFF vars_tryBFF R s hsel).2 hen, hz.1, hz.2⟩
  · intro hn
    have hfirst := ReconstructNextMuon_firstDedx noBFF vars_tryBFF R s hsel hn
    constructor
    · intro hacc
      exact ⟨_, _, hfirst, (fitStages_accepted_values noBFF vars_tryBFF R _ _ hacc).1⟩
    · intro hacc
      have hloc : (fitStages noBFF (vars_tryBFF.getD false) R
          (fastFit R s.skroot_mu_ s.calls).2.1 (fastFit R s.skroot_mu_ s.calls).2.2).1 =
          initLocals R.muboy_muentry (fitStages noBFF (vars_tryBFF.getD false) R
            (fastFit R s.skroot_mu_ s.calls).2.1
            (fastFit R s.skroot_mu_ s.calls).2.2).2.1 := by
        by_cases hen : bffEnabled noBFF vars_tryBFF R
        · exact (fitStages_rejected noBFF vars_tryBFF R _ _ hen
            (fun hb => hacc ⟨hen, hb⟩)).2.2
        · exact (fitStages_disabled noBFF vars_tryBFF R _ _ hen).2.2.1
      have hinit := (ReconstructNextMuon_inv noBFF vars_tryBFF R s
        (fun m => initLocals R.muboy_muentry m =
          initLocals R.muboy_muentry (fitStages noBFF (vars_tryBFF.getD false) R
            (fastFit R s.skroot_mu_ s.calls).2.1
            (fastFit R s.skroot_mu_ s.calls).2.2).2.1)
        (fun d t e mu hmu => hmu) hsel rfl).1
      rw [hfirst, hinit, ← hloc]

/-- C7 at a concrete input: selector value 1, `"tryBFF"` true, no veto, multi-track status
1 and goodness 0 (below 0.4), precision goodness 1 (above 0.3), two tracks. All five
conditions hold, the override is recorded in `muinfo[6]`, and `newmufit_` ran once. -/
theorem C7_witness :
    bffAccepted false (some true) (routinesOf 1 1 2 0 1) ∧
    (ReconstructNextMuon false (some true) (routinesOf 1 1 2 0 1)
      recoStale).2.skroot_mu_.muinfo 6 = 1 ∧
    (ReconstructNextMuon false (some true) (routinesOf 1 1 2 0 1)
      recoStale).2.calls.countP Call.isNewmufit = recoStale.calls.countP Call.isNewmufit + 1 :=
  have hacc : bffAccepted false (some true) (routinesOf 1 1 2 0 1) :=
    ⟨⟨rfl, rfl, rfl, by norm_num [routinesOf]⟩, by norm_num [routinesOf]⟩
  ⟨hacc,
   ((C7_ReconstructNextMuon_precision_override false (some true) (routinesOf 1 1 2 0 1)
      recoStale (by decide)).1.1).2 hacc,
   (C7_ReconstructNextMuon_precision_override false (some true) (routinesOf 1 1 2 0 1)
      recoStale (by decide)).2.2.1 hacc.1⟩

/-! ## The recorded track entry points -/

/-- What the loop of lines 484-496 leaves: for the tracks it visits, track 0 holds
`muentry` and track `t ≥ 1` holds `muboy_otherentry[4t-7 .. 4t-4]`; other positions are
untouched. -/
theorem entposLoop_spec (muentry other : Int → ℚ) (ntrack : Int) :
    ∀ (fuel : Nat) (track : Int) (e : Int → Int → ℚ), track + fuel ≤ ntrack →
      entposLoop muentry other ntrack fuel track e =
        fun t c => if track ≤ t ∧ t < track + fuel ∧ 0 ≤ c ∧ c < 4 then
            (if t = 0 then muentry c else other (4 * t - 7 + c))
          else e t c := by
  intro fuel
  induction fuel with
  | zero =>
    intro track e _
    funext t c
    have : ¬ (track ≤ t ∧ t < track + ((0 : Nat) : Int) ∧ 0 ≤ c ∧ c < 4) := by
      push_cast; omega
    simp only [entposLoop, this, if_false]
  | succ n ih =>
    intro track e h
    have hlt : track < ntrack := by push_cast at h; omega
    rw [entposLoop]
    simp only [hlt, if_true]
    by_cases h0 : track = 0
    · simp only [h0, if_true]
      rw [ih (0 + 1) _ (by push_cast at h ⊢; omega)]
      funext t c
      by_cases ht : t = 0
      · subst ht
        by_cases hc : 0 ≤ c ∧ c < 4
        · have hc4 : c = 0 ∨ c = 1 ∨ c = 2 ∨ c = 3 := by omega
          rcases hc4 with hc4 | hc4 | hc4 | hc4 <;> subst hc4 <;> simp [setAt2, setAt]
        · have hc0 : ¬ c = 0 := by omega
          have hc1 : ¬ c = 1 := by omega
          have hc2 : ¬ c = 2 := by omega
          have hc3 : ¬ c = 3 := by omega
          have hA : ¬ ((0 : Int) + 1 ≤ 0 ∧ (0 : Int) < 0 + 1 + (n : Int) ∧ 0 ≤ c ∧ c < 4) := by
            omega
          have hB : ¬ ((0 : Int) ≤ 0 ∧ (0 : Int) < 0 + ((n + 1 : Nat) : Int) ∧ 0 ≤ c ∧ c < 4) := by
            omega
          simp only [hA, hB, if_false, setAt2, setAt, hc0, hc1, hc2, hc3, if_true]
      · by_cases hin : (0 : Int) + 1 ≤ t ∧ t < 0 + 1 + (n : Int) ∧ 0 ≤ c ∧ c < 4
        · have hB : (0 : Int) ≤ t ∧ t < 0 + ((n + 1 : Nat) : Int) ∧ 0 ≤ c ∧ c < 4 := by
            push_cast; omega
          simp only [hin, hB, and_self, if_true, ht, if_false]
        · have hB : ¬ ((0 : Int) ≤ t ∧ t < 0 + ((n + 1 : Nat) : Int) ∧ 0 ≤ c ∧ c < 4) := by
            push_cast; omega
          simp only [hin, hB, if_false, setAt2, ht]
    · simp only [h0, if_false]
      rw [ih (track + 1) _ (by push_cast at h ⊢; omega)]
      funext t c
      by_cases ht : t = track
      · subst ht
        by_cases hc : 0 ≤ c ∧ c < 4
        · have hc4 : c = 0 ∨ c = 1 ∨ c = 2 ∨ c = 3 := by omega
          have hA : ¬ (t + 1 ≤ t ∧ t < t + 1 + (n : Int) ∧ 0 ≤ c ∧ c < 4) := by omega
          have hB : (t ≤ t ∧ t < t + ((n + 1 : Nat) : Int) ∧ 0 ≤ c ∧ c < 4) := by
            push_cast; omega
          simp only [hA, hB, and_self, if_true, if_false, h0]
          rcases hc4 with hc4 | hc4 | hc4 | hc4 <;> subst hc4 <;> simp [setAt2, setAt] <;>
            ring_nf
        · have hc0 : ¬ c = 0 := by omega
          have hc1 : ¬ c = 1 := by omega
          have hc2 : ¬ c = 2 := by omega
          have hc3 : ¬ c = 3 := by omega
          have hA : ¬ (t + 1 ≤ t ∧ t < t + 1 + (n : Int) ∧ 0 ≤ c ∧ c < 4) := by omega
          have hB : ¬ (t ≤ t ∧ t < t + ((n + 1 : Nat) : Int) ∧ 0 ≤ c ∧ c < 4) := by omega
          simp only [hA, hB, if_false, setAt2, setAt, hc0, hc1, hc2, hc3, if_true]
      · by_cases hin : track + 1 ≤ t ∧ t < track + 1 + (n : Int) ∧ 0 ≤ c ∧ c < 4
        · have hB : track ≤ t ∧ t < track + ((n + 1 : Nat) : Int) ∧ 0 ≤ c ∧ c < 4 := by
            push_cast; omega
          simp only [hin, hB, and_self, if_true]
        · have hB : ¬ (track ≤ t ∧ t < track + ((n + 1 : Nat) : Int) ∧ 0 ≤ c ∧ c < 4) := by
            push_cast; omega
          simp only [hin, hB, if_false, setAt2, ht]

/-- The entry point `muboyFit` records for track `t` with `1 ≤ t < muboy_ntrack`:
component `c` is read from position `4t - 7 + c` of the additional-entries buffer, which
for `t = 1` is positions `-3, -2, -1, 0`. -/
theorem muboyFit_entpos_other (R : Routines) (mu : skroot_mu_common) (calls : List Call)
    (t c : Int) (h1 : 1 ≤ t) (h2 : t < R.muboy_ntrack) (hc0 : 0 ≤ c) (hc4 : c < 4) :
    (muboyFit R mu calls).1.muboy_entpos t c = R.muboy_otherentry (4 * t - 7 + c) := by
  have hsp := entposLoop_spec R.muboy_muentry R.muboy_otherentry R.muboy_ntrack
    R.muboy_ntrack.toNat 0 mu.muboy_entpos (by omega)
  have hin : (0 : Int) ≤ t ∧ t < 0 + (R.muboy_ntrack.toNat : Int) ∧ 0 ≤ c ∧ c < 4 := by omega
  have ht0 : ¬ t = 0 := by omega
  simp only [muboyFit, hsp, hin, and_self, if_true, ht0, if_false]

/-- C9, the code at the failing input: the multi-track fit reports two tracks and returns
the additional-entries buffer `11, 12, 13, 14, ...` (positions 0, 1, 2, 3, ...), with zero
in the memory before the buffer. The entry point recorded for track 1, in the common
block and in both emitted results, is `(0, 0, 0, 11)`: the values at positions -3, -2, -1
and 0, three of which lie before the buffer, and not the values `(11, 12, 13, 14)` at
positions 0 to 3. Track 0's entry point is the fit's primary entry `(1, 2, 3, 4)`. -/
theorem C9_ReconstructNextMuon_track1_reads_before_buffer :
    (routinesOf 1 1 2 1 0).muboy_ntrack = 2 ∧
    [(routinesOf 1 1 2 1 0).muboy_otherentry 0, (routinesOf 1 1 2 1 0).muboy_otherentry 1,
      (routinesOf 1 1 2 1 0).muboy_otherentry 2, (routinesOf 1 1 2 1 0).muboy_otherentry 3]
      = [11, 12, 13, 14] ∧
    (ReconstructNextMuon false none (routinesOf 1 1 2 1 0) recoStale).1 = true ∧
    [(ReconstructNextMuon false none (routinesOf 1 1 2 1 0) recoStale).2.skroot_mu_.muboy_entpos 0 0,
      (ReconstructNextMuon false none (routinesOf 1 1 2 1 0) recoStale).2.skroot_mu_.muboy_entpos 0 1,
      (ReconstructNextMuon false none (routinesOf 1 1 2 1 0) recoStale).2.skroot_mu_.muboy_entpos 0 2,
      (ReconstructNextMuon false none (routinesOf 1 1 2 1 0) recoStale).2.skroot_mu_.muboy_entpos 0 3]
      = [1, 2, 3, 4] ∧
    [(ReconstructNextMuon false none (routinesOf 1 1 2 1 0) recoStale).2.skroot_mu_.muboy_entpos 1 0,
      (ReconstructNextMuon false none (routinesOf 1 1 2 1 0) recoStale).2.skroot_mu_.muboy_entpos 1 1,
      (ReconstructNextMuon false none (routinesOf 1 1 2 1 0) recoStale).2.skroot_mu_.muboy_entpos 1 2,
      (ReconstructNextMuon false none (routinesOf 1 1 2 1 0) recoStale).2.skroot_mu_.muboy_entpos 1 3]
      = [0, 0, 0, 11] ∧
    (ReconstructNextMuon false none (routinesOf 1 1 2 1 0) recoStale).2.reco_muons.map
      (fun m => [m.muboy_entpos 1 0, m.muboy_entpos 1 1, m.muboy_entpos 1 2, m.muboy_entpos 1 3])
      = [[0, 0, 0, 11], [0, 0, 0, 11]] := by
  decide

/-! ## Claims on `WriteEventsOut` -/

/-- A read that succeeds puts the reader on the entry read. -/
theorem getTreeEntry_entry (S : Store) (entry : Nat) (w : World)
    (h : S.readable entry = true) : (getTreeEntry S entry w).2.entry = entry := by
  simp [getTreeEntry, h]

/-- When the reader stands on an entry the store can read and `WriteEventsOut` returns
`true`, the reader's entry number at return is the entry number it had when the call was
entered: the restoring read of line 337 succeeds. -/
theorem WriteEventsOut_restores_entry_of_readable (S : Store) (cfg : Config)
    (eventsToWrite : List ParticleCand) (outLUN : Int) (eventType : EventType) (w : World)
    (hread : S.readable w.entry = true)
    (hret : (WriteEventsOut S cfg eventsToWrite outLUN eventType w).1 = true) :
    (WriteEventsOut S cfg eventsToWrite outLUN eventType w).2.2.entry = w.entry := by
  unfold WriteEventsOut at hret ⊢
  by_cases hloop : (writeLoop S cfg outLUN eventType w.entry eventsToWrite w).1 = true
  · simp only [hloop, if_true]
    by_cases hmoved : w.entry ≠ (writeLoop S cfg outLUN eventType w.entry eventsToWrite w).2.entry
    · rw [if_pos hmoved]
      exact getTreeEntry_entry S w.entry _ hread
    · rw [if_neg hmoved]
      exact (not_not.mp hmoved).symm
  · simp [hloop] at hret

/-- A call whose restoring read succeeds: a store of 10 entries, the reader on entry 5,
two LowE candidates at entries 3 and 6 (the second with an AFT, read from entry 7); the
call returns `true` and the reader is back on entry 5. -/
theorem WriteEventsOut_restores_entry_example :
    (WriteEventsOut (storeOf 10 0 (routinesOf 1 1 2 1 0)) (cfgOf false)
      [candOf 3 false 0, candOf 6 true 1] 20 EventType.LowE
      (worldOf 5 0 (routinesOf 1 1 2 1 0))).2.2.entry = 5 :=
  WriteEventsOut_restores_entry_of_readable (storeOf 10 0 (routinesOf 1 1 2 1 0)) (cfgOf false)
    [candOf 3 false 0, candOf 6 true 1] 20 EventType.LowE (worldOf 5 0 (routinesOf 1 1 2 1 0))
    (by decide) (by decide)

/-- C8, the code at the failing input: one Muon candidate at entry 3, no AFT, the fast
selector positive and the multi-track fit reporting two tracks, with no `"reco_muons"`
entry in the `CStore`. `ReconstructNextMuon` succeeds and leaves two results in the member
vector `reco_muons`, but `WriteEventsOut` takes the results to write from the `CStore`
(line 290), which the reconstruction never fills: no row is appended. With a stale
three-element vector in the `CStore`, three rows are appended instead of two. -/
theorem C8_WriteEventsOut_muon_rows_come_from_CStore :
    (WriteEventsOut (storeOf 10 0 (routinesOf 1 1 2 1 0)) (cfgOf false) [candOf 3 false 0] 21
      EventType.Muon (worldOf 5 0 (routinesOf 1 1 2 1 0))).1 = true ∧
    (WriteEventsOut (storeOf 10 0 (routinesOf 1 1 2 1 0)) (cfgOf false) [candOf 3 false 0] 21
      EventType.Muon (worldOf 5 0 (routinesOf 1 1 2 1 0))).2.2.reco.reco_muons.length = 2 ∧
    ((WriteEventsOut (storeOf 10 0 (routinesOf 1 1 2 1 0)) (cfgOf false) [candOf 3 false 0] 21
      EventType.Muon (worldOf 5 0 (routinesOf 1 1 2 1 0))).2.2.trees 21).rows.length = 0 ∧
    ((WriteEventsOut (storeOf 10 0 (routinesOf 1 1 2 1 0)) (cfgOf false) [candOf 3 false 0] 21
      EventType.Muon (worldWithCStore 5 0 (routinesOf 1 1 2 1 0)
        [skroot_mu_zero, skroot_mu_zero, skroot_mu_zero])).2.2.trees 21).rows.length = 3 := by
  decide

/-- A read leaves the masking mode and the output trees. -/
theorem getTreeEntry_frame (S : Store) (entry : Nat) (w : World) :
    (getTreeEntry S entry w).2.imaskbadopt = w.imaskbadopt ∧
    (getTreeEntry S entry w).2.trees = w.trees := by
  unfold getTreeEntry
  split <;> exact ⟨rfl, rfl⟩

/-- A read succeeds exactly when the store can read the entry. -/
theorem getTreeEntry_fst (S : Store) (entry : Nat) (w : World) :
    (getTreeEntry S entry w).1 = S.readable entry := by
  unfold getTreeEntry
  split <;> simp [*]

/-- The lookahead read, when it does not fail, leaves the masking mode and the trees. -/
theorem prefetchAFT_ok (S : Store) (currentEntry : Nat) (c : ParticleCand) (w : World)
    (h : c.hasAFT = true → c.InEntryNumber + 1 ≠ currentEntry →
      S.readable (c.InEntryNumber + 1) = true) :
    (prefetchAFT S currentEntry c w).1 = true ∧
    (prefetchAFT S currentEntry c w).2.imaskbadopt = w.imaskbadopt ∧
    (prefetchAFT S currentEntry c w).2.trees = w.trees := by
  unfold prefetchAFT
  by_cases hc : (c.hasAFT && decide (c.InEntryNumber + 1 ≠ currentEntry)) = true
  · have hr : S.readable (c.InEntryNumber + 1) = true := by
      simp only [Bool.and_eq_true, decide_eq_true_eq] at hc
      exact h hc.1 hc.2
    have hfst : (getTreeEntry S (c.InEntryNumber + 1) w).1 = true := by
      rw [getTreeEntry_fst]; exact hr
    rw [if_pos hc]
    simp only [hfst, if_true]
    exact ⟨trivial, (getTreeEntry_frame S _ w).1, (getTreeEntry_frame S _ w).2⟩
  · rw [if_neg hc]
    exact ⟨rfl, rfl, rfl⟩

/-- The primary load of a LowE candidate, when no read fails, leaves the masking mode and
the trees. -/
theorem loadPrimary_LowE_ok (S : Store) (c : ParticleCand) (w : World)
    (hread : S.readable c.InEntryNumber = true)
    (hsub : c.SubTriggerNumber ≠ 0 →
      (S.skcread c.InEntryNumber c.it0xsk w.imaskbadopt).1 = 0) :
    (loadPrimary S EventType.LowE c w).1 = true ∧
    (loadPrimary S EventType.LowE c w).2.imaskbadopt = w.imaskbadopt ∧
    (loadPrimary S EventType.LowE c w).2.trees = w.trees := by
  have hne : ¬ (EventType.LowE = EventType.Muon) := by decide
  have hent : (getTreeEntry S c.InEntryNumber w).2.entry = c.InEntryNumber :=
    getTreeEntry_entry S _ w hread
  unfold loadPrimary
  simp only [hne, if_false]
  by_cases hs : c.SubTriggerNumber ≠ 0
  · have h0 : (skcread_ S c.it0xsk (getTreeEntry S c.InEntryNumber w).2).1 = 0 := by
      simp only [skcread_, hent, (getTreeEntry_frame S _ w).1]
      exact hsub hs
    rw [if_pos hs]
    simp only [h0, decide_True, if_true]
    exact ⟨trivial, (getTreeEntry_frame S _ w).1, (getTreeEntry_frame S _ w).2⟩
  · rw [if_neg hs]
    simp only [if_true]
    exact ⟨trivial, (getTreeEntry_frame S _ w).1, (getTreeEntry_frame S _ w).2⟩

/-- The emission for a LowE candidate on the relic writer's unit appends one row, with the
candidate's payload, match metadata and timestamp, and leaves the masking mode. -/
theorem emit_LowE_row (cfg : Config) (c : ParticleCand) (w : World) :
    (emit cfg cfg.relicWriterLUN EventType.LowE c w).imaskbadopt = w.imaskbadopt ∧
    ∃ row, ((emit cfg cfg.relicWriterLUN EventType.LowE c w).trees cfg.relicWriterLUN).rows =
        (w.trees cfg.relicWriterLUN).rows ++ [row] ∧
      row.candColumns = c.columns := by
  refine ⟨rfl, ?_⟩
  simp [emit, skroot_set_tree_, skroot_set_lowe_, skroot_fill_tree_, setAt, Row.candColumns,
    ParticleCand.columns]

/-- One turn of the loop for a LowE candidate on the relic writer's unit, when no read
fails: the body does not return, leaves the masking mode, and appends one row with the
candidate's columns. -/
theorem writeCandidate_LowE (S : Store) (cfg : Config) (currentEntry : Nat)
    (c : ParticleCand) (w : World) (h : readsSucceed S currentEntry w.imaskbadopt c) :
    (writeCandidate S cfg cfg.relicWriterLUN EventType.LowE currentEntry c w).1 = true ∧
    (writeCandidate S cfg cfg.relicWriterLUN EventType.LowE currentEntry c w).2.imaskbadopt =
      w.imaskbadopt ∧
    ∃ row,
      ((writeCandidate S cfg cfg.relicWriterLUN EventType.LowE currentEntry c w).2.trees
          cfg.relicWriterLUN).rows = (w.trees cfg.relicWriterLUN).rows ++ [row] ∧
      row.candColumns = c.columns := by
  obtain ⟨ha1, ha2, ha3⟩ := prefetchAFT_ok S currentEntry c w h.1
  obtain ⟨hb1, hb2, hb3⟩ := loadPrimary_LowE_ok S c (prefetchAFT S currentEntry c w).2 h.2.1
    (by rw [ha2]; exact h.2.2)
  obtain ⟨he1, row, he2, he3⟩ := emit_LowE_row cfg c
    (loadPrimary S EventType.LowE c (prefetchAFT S currentEntry c w).2).2
  have hne : ¬ (EventType.LowE = EventType.Muon) := by decide
  unfold writeCandidate
  simp only [ha1, hb1, if_true, hne, if_false]
  refine ⟨trivial, by rw [he1, hb2, ha2], row, ?_, he3⟩
  rw [he2, hb3, ha3]

/-- The loop over a LowE queue on the relic writer's unit, when no read fails: it runs to
the end and appends one row per candidate, in queue order, each with its candidate's
columns. -/
theorem writeLoop_LowE (S : Store) (cfg : Config) (currentEntry : Nat) :
    ∀ (q : List ParticleCand) (w : World),
      (∀ c ∈ q, readsSucceed S currentEntry w.imaskbadopt c) →
      (writeLoop S cfg cfg.relicWriterLUN EventType.LowE currentEntry q w).1 = true ∧
      (writeLoop S cfg cfg.relicWriterLUN EventType.LowE currentEntry q w).2.imaskbadopt =
        w.imaskbadopt ∧
      ∃ rows,
        ((writeLoop S cfg cfg.relicWriterLUN EventType.LowE currentEntry q w).2.trees
            cfg.relicWriterLUN).rows = (w.trees cfg.relicWriterLUN).rows ++ rows ∧
        rows.map Row.candColumns = q.map ParticleCand.columns := by
  intro q
  induction q with
  | nil =>
    intro w _
    exact ⟨rfl, rfl, [], by simp [writeLoop], rfl⟩
  | cons c cs ih =>
    intro w h
    obtain ⟨h1, h2, row, h3, h4⟩ := writeCandidate_LowE S cfg currentEntry c w
      (h c (List.mem_cons_self c cs))
    obtain ⟨i1, i2, rows, i3, i4⟩ := ih
      (writeCandidate S cfg cfg.relicWriterLUN EventType.LowE currentEntry c w).2
      (by
        intro c2 hc2
        rw [h2]
        exact h c2 (List.mem_cons_of_mem c hc2))
    rw [writeLoop]
    simp only [h1, if_true]
    refine ⟨i1, by rw [i2, h2], row :: rows, ?_, ?_⟩
    · rw [i3, h3, List.append_assoc, List.singleton_append]
    · rw [List.map_cons, List.map_cons, h4, i4]

/-- C10: for every LowE queue written to the relic writer's unit (as `Execute` and
`Finalise` call it) in which no store read fails, `WriteEventsOut` returns `true` and
appends exactly one row per candidate to the relic tree, in queue order; the `i`-th new row
carries the `i`-th candidate's low-energy payload unchanged, its match metadata (event
numbers, entry numbers, has-AFT flags, time differences, energies) and its timestamp
(ticks, rollovers). -/
theorem C10_WriteEventsOut_LowE_one_row_per_candidate (S : Store) (cfg : Config)
    (eventsToWrite : List ParticleCand) (w : World)
    (h : ∀ c ∈ eventsToWrite, readsSucceed S w.entry w.imaskbadopt c) :
    (WriteEventsOut S cfg eventsToWrite cfg.relicWriterLUN EventType.LowE w).1 = true ∧
    ∃ rows,
      ((WriteEventsOut S cfg eventsToWrite cfg.relicWriterLUN EventType.LowE w).2.2.trees
          cfg.relicWriterLUN).rows = (w.trees cfg.relicWriterLUN).rows ++ rows ∧
      rows.length = eventsToWrite.length ∧
      rows.map Row.candColumns = eventsToWrite.map ParticleCand.columns := by
  obtain ⟨h1, _, rows, h3, h4⟩ := writeLoop_LowE S cfg w.entry eventsToWrite w h
  have hlen : rows.length = eventsToWrite.length := by
    have := congrArg List.length h4
    simpa using this
  unfold WriteEventsOut
  simp only [h1, if_true]
  refine ⟨trivial, rows, ?_, hlen, h4⟩
  rw [← h3]
  by_cases hm : w.entry ≠
      (writeLoop S cfg cfg.relicWriterLUN EventType.LowE w.entry eventsToWrite w).2.entry
  · rw [if_pos hm]
    unfold getTreeEntry
    split <;> rfl
  · rw [if_neg hm]

/-- C10 at a concrete input: a store of 10 entries, the reader on entry 5, and two LowE
candidates (entry 3 without AFT, entry 6 with AFT) carrying distinct payloads, metadata
and timestamps; no read fails, and the relic tree receives their two rows in order. -/
theorem C10_witness :
    (WriteEventsOut (storeOf 10 0 (routinesOf 1 1 2 1 0)) (cfgOf false)
      [candOf 3 false 0, candOf 6 true 1] (cfgOf false).relicWriterLUN EventType.LowE
      (worldOf 5 0 (routinesOf 1 1 2 1 0))).1 = true ∧
    ∃ rows,
      ((WriteEventsOut (storeOf 10 0 (routinesOf 1 1 2 1 0)) (cfgOf false)
        [candOf 3 false 0, candOf 6 true 1] (cfgOf false).relicWriterLUN EventType.LowE
        (worldOf 5 0 (routinesOf 1 1 2 1 0))).2.2.trees (cfgOf false).relicWriterLUN).rows =
        ((worldOf 5 0 (routinesOf 1 1 2 1 0)).trees (cfgOf false).relicWriterLUN).rows ++ rows ∧
      rows.length = [candOf 3 false 0, candOf 6 true 1].length ∧
      rows.map Row.candColumns =
        [candOf 3 false 0, candOf 6 true 1].map ParticleCand.columns :=
  C10_WriteEventsOut_LowE_one_row_per_candidate (storeOf 10 0 (routinesOf 1 1 2 1 0))
    (cfgOf false) [candOf 3 false 0, candOf 6 true 1] (worldOf 5 0 (routinesOf 1 1 2 1 0))
    (by
      intro c hc
      simp only [List.mem_cons, List.mem_singleton, List.not_mem_nil, or_false] at hc
      rcases hc with hc | hc <;> subst hc <;>
        exact ⟨by decide, by decide, by decide⟩)

/-! ## Remaining claims on `ReconstructNextMuon` -/

/-- The precision-fit stage leaves `muyn`. -/
theorem fitStages_muyn (noBFF tryBFF : Bool) (R : Routines) (mu : skroot_mu_common)
    (calls : List Call) :
    (fitStages noBFF tryBFF R mu calls).2.1.muyn = mu.muyn := by
  unfold fitStages precisionFit
  simp only [muboyFit]
  split_ifs <;> rfl

/-- After a successful call `muyn` is the selector's own value, in the common block and
in every emitted result: line 463 stores `muyn_org`, and the test of line 464 cannot
hold. -/
theorem ReconstructNextMuon_muyn (noBFF : Bool) (vars_tryBFF : Option Bool) (R : Routines)
    (s : RecoState) (h : R.mfmuselect_muyn ≠ 0) :
    (ReconstructNextMuon noBFF vars_tryBFF R s).2.skroot_mu_.muyn = R.mfmuselect_muyn ∧
    ∀ m ∈ (ReconstructNextMuon noBFF vars_tryBFF R s).2.reco_muons,
      m.muyn = R.mfmuselect_muyn := by
  apply ReconstructNextMuon_inv noBFF vars_tryBFF R s (fun m => m.muyn = R.mfmuselect_muyn)
    (fun _ _ _ _ hmu => hmu) h
  rw [fitStages_muyn]
  by_cases hp : 0 < R.mfmuselect_muyn
  · exact (fastFit_pos R _ _ hp).2.1
  · exact (fastFit_neg R _ _ (by omega)).2.1

/-- C16, the code at the failing input: selector value 1, one track, no precision fit
(`"tryBFF"` absent), the multi-track fit returning the primary entry `(1, 2, 3, 4)`, and a
zero-filled `skroot_mu_` before the call. The entry point recorded for track 0 is
`(1, 2, 3, 4)`, but the entry point handed to `makededx_` for track 0 is `(1, 0, 0, 0)`:
lines 519-522 fill `muentry[i]` from `muboy_entpos[i][0]`, the first coordinate of tracks
0, 1, 2, 3, and not from `muboy_entpos[0][i]`. -/
theorem C16_ReconstructNextMuon_track0_entry_transposed :
    (ReconstructNextMuon false none (routinesOf 1 1 1 1 0) recoStale).1 = true ∧
    [(ReconstructNextMuon false none (routinesOf 1 1 1 1 0) recoStale).2.skroot_mu_.muboy_entpos 0 0,
      (ReconstructNextMuon false none (routinesOf 1 1 1 1 0) recoStale).2.skroot_mu_.muboy_entpos 0 1,
      (ReconstructNextMuon false none (routinesOf 1 1 1 1 0) recoStale).2.skroot_mu_.muboy_entpos 0 2,
      (ReconstructNextMuon false none (routinesOf 1 1 1 1 0) recoStale).2.skroot_mu_.muboy_entpos 0 3]
      = [1, 2, 3, 4] ∧
    (ReconstructNextMuon false none (routinesOf 1 1 1 1 0) recoStale).2.skroot_mu_.muinfo 6 = 0 ∧
    (firstDedx (ReconstructNextMuon false none (routinesOf 1 1 1 1 0) recoStale).2.calls).map
      (fun p => [p.1 0, p.1 1, p.1 2, p.1 3]) = some [1, 0, 0, 0] := by
  decide

/-- C17, the code at the failing input: the fast selector returns `-1` and the fast
fallback fit returns quality `7`, with two tracks. `mffastfast_` is called, but `muyn` of
the common block and of both emitted results is `-1`, the selector's own value, not `7`. -/
theorem C17_ReconstructNextMuon_muyn_is_selector_value :
    (routinesOf (-1) 1 2 1 0).mfmuselect_muyn = -1 ∧
    (routinesOf (-1) 1 2 1 0).mffastfast_muynf = 7 ∧
    (ReconstructNextMuon false none (routinesOf (-1) 1 2 1 0) recoStale).1 = true ∧
    (ReconstructNextMuon false none (routinesOf (-1) 1 2 1 0) recoStale).2.calls.countP
      Call.isMffastfast = 1 ∧
    (ReconstructNextMuon false none (routinesOf (-1) 1 2 1 0) recoStale).2.skroot_mu_.muyn = -1 ∧
    (ReconstructNextMuon false none (routinesOf (-1) 1 2 1 0) recoStale).2.reco_muons.map
      (fun m => m.muyn) = [-1, -1] := by
  decide

/-! ## Claims on the array positions of `AddAftHits` -/

/-- The traced overlap scan returns the `k` of `scanOverlap`. -/
theorem scanOverlapT_fst (od : Bool) (icab_aft : Int → Int) (q_aft : Int → ℚ) (n_aft : Int)
    (icab : Int → Int) (q : Int → ℚ) (last_hit : Int) :
    ∀ (fuel : Nat) (k : Int),
      (scanOverlapT od icab_aft q_aft n_aft icab q last_hit fuel k).1 =
        scanOverlap icab_aft q_aft n_aft icab q last_hit fuel k := by
  intro fuel
  induction fuel with
  | zero => intro k; rfl
  | succ n ih =>
    intro k
    rw [scanOverlapT, scanOverlap]
    split_ifs <;> first | rfl | exact ih (k + 1)

/-- The traced copy loop returns the arrays and the `j` of `copyHits`. -/
theorem copyHitsT_fst (od : Bool) (aft : HitArrays) (n_aft : Int) :
    ∀ (fuel : Nat) (i j : Int) (dst : HitArrays),
      (copyHitsT od aft n_aft fuel i j dst).1 = copyHits aft n_aft fuel i j dst := by
  intro fuel
  induction fuel with
  | zero => intro i j dst; rfl
  | succ n ih =>
    intro i j dst
    rw [copyHitsT, copyHits]
    split_ifs
    · exact ih _ _ _
    · rfl

/-- C18, the code at the failing input: array capacity 10 for both subsystems, a primary
window with no hit and a following window with one ID hit, so that all counts are
non-negative and the summed counts do not exceed the capacity. `last_hit` is `-1`, and
the first turn of the ID scan (line 360) reads position `-1` of the primary's ID arrays,
which is outside the arrays. -/
theorem C18_AddAftHits_reads_before_primary_array :
    (0 ≤ (windowOf [] []).nqisk_raw ∧ 0 ≤ (windowOf [] []).nhitaz_raw ∧
      0 ≤ (windowOf [(1, 1, 1)] []).nqisk_raw ∧ 0 ≤ (windowOf [(1, 1, 1)] []).nhitaz_raw ∧
      (windowOf [] []).nqisk_raw + (windowOf [(1, 1, 1)] []).nqisk_raw ≤ 10 ∧
      (windowOf [] []).nhitaz_raw + (windowOf [(1, 1, 1)] []).nhitaz_raw ≤ 10) ∧
    Access.mk false true (-1) ∈ AddAftHits_accesses (windowOf [(1, 1, 1)] []) (windowOf [] []) ∧
    ¬ Access.inBounds 10 10 (Access.mk false true (-1)) ∧
    ¬ ∀ a ∈ AddAftHits_accesses (windowOf [(1, 1, 1)] []) (windowOf [] []),
        Access.inBounds 10 10 a := by
  have hmem : Access.mk false true (-1) ∈
      AddAftHits_accesses (windowOf [(1, 1, 1)] []) (windowOf [] []) := by decide
  have hout : ¬ Access.inBounds 10 10 (Access.mk false true (-1)) := by
    intro h
    exact absurd h.1 (by decide)
  exact ⟨by decide, hmem, hout, fun hall => hout (hall _ hmem)⟩

/-! ## Claims on `ClosestApproach` -/

/-- An inner product over an empty range is its initial value. -/
theorem inner_product_empty (ops : FloatOps) (a b : Int → ℚ) (first1 first2 init : Int) :
    inner_product ops a first1 first1 b first2 init = init := by
  simp [inner_product, inner_product_loop]

/-- C19: for every arithmetic in which the square root of the `double` zero is zero, and
for every vertex, muon entry point, muon direction and memory past `muon_dir`,
`ClosestApproach` returns 0: the inner product of line 123 runs over the empty range from
`dist_vec.begin()` to `dist_vec.begin()`, so its value is the initial `0`. The value filled
into the distance-to-muon histogram is therefore the same for any two neutron cloud
vertices. -/
theorem C19_ClosestApproach_returns_zero (ops : FloatOps) (past : Int → ℚ)
    (skroot_mu_ : skroot_mu_common) (vertex : Int → ℚ)
    (hsqrt : ops.sqrt (ops.ofInt 0) = 0) :
    (ClosestApproach ops past skroot_mu_ vertex).1 = 0 ∧
    ∀ vertex2 : Int → ℚ,
      Execute_dist_to_mu ops past skroot_mu_ vertex =
        Execute_dist_to_mu ops past skroot_mu_ vertex2 := by
  have h0 : ∀ v : Int → ℚ, (ClosestApproach ops past skroot_mu_ v).1 = 0 := by
    intro v
    simp only [ClosestApproach, inner_product_empty]
    exact hsqrt
  exact ⟨h0 vertex, fun v2 => by simp only [Execute_dist_to_mu, h0]⟩

/-- C19 at a concrete input: exact arithmetic, entry point `(1, 2, 3)`, direction
`(0, 0, 1)`, and the vertex `(10, 20, 30)`, whose distance from the muon track is not
zero; `ClosestApproach` returns 0. -/
theorem C19_witness :
    (ClosestApproach exactOps (fun _ => 0) muAlongZ (fun i => ((10 * (i + 1) : Int) : ℚ))).1 = 0 ∧
    ∀ vertex2 : Int → ℚ,
      Execute_dist_to_mu exactOps (fun _ => 0) muAlongZ (fun i => ((10 * (i + 1) : Int) : ℚ)) =
        Execute_dist_to_mu exactOps (fun _ => 0) muAlongZ vertex2 :=
  C19_ClosestApproach_returns_zero exactOps (fun _ => 0) muAlongZ
    (fun i => ((10 * (i + 1) : Int) : ℚ)) (by simp [exactOps])

/-! ## Remaining claims on `WriteEventsOut` -/

/-- The lookahead read leaves the masking mode and the output trees, whether it fails or
not. -/
theorem prefetchAFT_frame (S : Store) (currentEntry : Nat) (c : ParticleCand) (w : World) :
    (prefetchAFT S currentEntry c w).2.imaskbadopt = w.imaskbadopt ∧
    (prefetchAFT S currentEntry c w).2.trees = w.trees := by
  unfold prefetchAFT getTreeEntry
  dsimp only
  split_ifs <;> exact ⟨rfl, rfl⟩

/-- A lookahead read that fails returns at once, leaving the world as it was. -/
theorem prefetchAFT_fails (S : Store) (currentEntry : Nat) (c : ParticleCand) (w : World)
    (haft : c.hasAFT = true) (hne : c.InEntryNumber + 1 ≠ currentEntry)
    (hread : S.readable (c.InEntryNumber + 1) = false) :
    prefetchAFT S currentEntry c w = (false, w) := by
  have hc : (c.hasAFT && decide (c.InEntryNumber + 1 ≠ currentEntry)) = true := by
    simp [haft, hne]
  unfold prefetchAFT
  rw [if_pos hc]
  simp [getTreeEntry, hread]

/-- The gated re-read leaves the reader's entry, the masking mode, the saved mode and
the output trees. -/
theorem skcread_frame (S : Store) (it0xsk : Int) (w : World) :
    (skcread_ S it0xsk w).2.entry = w.entry ∧
    (skcread_ S it0xsk w).2.imaskbadopt = w.imaskbadopt ∧
    (skcread_ S it0xsk w).2.current_badch_masking = w.current_badch_masking ∧
    (skcread_ S it0xsk w).2.trees = w.trees :=
  ⟨rfl, rfl, rfl, rfl⟩

/-- A read leaves the saved masking mode. -/
theorem getTreeEntry_saved (S : Store) (entry : Nat) (w : World) :
    (getTreeEntry S entry w).2.current_badch_masking = w.current_badch_masking := by
  unfold getTreeEntry
  split <;> rfl

/-- The primary load leaves the output trees, whether it returns or not. -/
theorem loadPrimary_trees (S : Store) (eventType : EventType) (c : ParticleCand) (w : World) :
    (loadPrimary S eventType c w).2.trees = w.trees := by
  unfold loadPrimary
  cases eventType <;> simp only [reduceCtorEq, if_false, if_true] <;>
    split_ifs <;> simp only [(skcread_frame S _ _).2.2.2, (getTreeEntry_frame S _ _).2]

/-- The primary load of a LowE candidate leaves the masking mode, whether it returns or
not. -/
theorem loadPrimary_LowE_mask (S : Store) (c : ParticleCand) (w : World) :
    (loadPrimary S EventType.LowE c w).2.imaskbadopt = w.imaskbadopt := by
  unfold loadPrimary
  simp only [reduceCtorEq, if_false]
  split_ifs <;> simp only [(skcread_frame S _ _).2.1, (getTreeEntry_frame S _ _).1]

/-- A primary load that does not return from the call leaves the masking mode it found:
for a muon the mode is saved, set to 0 for the load, and put back. -/
theorem loadPrimary_mask_ok (S : Store) (eventType : EventType) (c : ParticleCand) (w : World)
    (h : (loadPrimary S eventType c w).1 = true) :
    (loadPrimary S eventType c w).2.imaskbadopt = w.imaskbadopt := by
  cases eventType
  · exact loadPrimary_LowE_mask S c w
  · unfold loadPrimary at h ⊢
    simp only [if_true] at h ⊢
    by_cases hs : c.SubTriggerNumber ≠ 0
    · rw [if_pos hs] at h ⊢
      by_cases h0 : (skcread_ S c.it0xsk (getTreeEntry S c.InEntryNumber
          { w with current_badch_masking := w.imaskbadopt, imaskbadopt := 0 }).2).1 = 0
      · simp only [h0, decide_True, if_true]
        show (skcread_ S c.it0xsk _).2.current_badch_masking = _
        rw [(skcread_frame S _ _).2.2.1, getTreeEntry_saved]
      · simp [h0] at h
    · rw [if_neg hs]
      simp only [if_true]
      show (getTreeEntry S c.InEntryNumber _).2.current_badch_masking = _
      rw [getTreeEntry_saved]

/-- The reader runs a muon candidate's primary load under masking mode 0: the record
loaded at line 171 is the store's record for mode 0. -/
theorem loadPrimary_Muon_mode (S : Store) (c : ParticleCand) (w : World)
    (hread : S.readable c.InEntryNumber = true) (hsub : c.SubTriggerNumber = 0) :
    (loadPrimary S EventType.Muon c w).2.rawtqinfo_ = (S.record c.InEntryNumber 0).rawtqinfo ∧
    (loadPrimary S EventType.Muon c w).2.routines = (S.record c.InEntryNumber 0).routines := by
  unfold loadPrimary
  simp [hsub, getTreeEntry, hread]

/-- Writing the rows of a muon leaves the masking mode. -/
theorem fillMuons_mask (outLUN : Int) :
    ∀ (l : List skroot_mu_common) (w : World),
      (fillMuons outLUN l w).imaskbadopt = w.imaskbadopt := by
  intro l
  induction l with
  | nil => intro w; rfl
  | cons m ms ih =>
    intro w
    rw [fillMuons, ih]
    rfl

/-- The emission leaves the masking mode. -/
theorem emit_mask (cfg : Config) (outLUN : Int) (eventType : EventType) (c : ParticleCand)
    (w : World) : (emit cfg outLUN eventType c w).imaskbadopt = w.imaskbadopt := by
  unfold emit
  cases eventType
  · rfl
  · simp only
    split
    · rw [fillMuons_mask]; rfl
    · rfl

/-- The loop body when the lookahead read fails: the `return false` of line 150. -/
theorem writeCandidate_abort_lookahead (S : Store) (cfg : Config) (outLUN : Int)
    (eventType : EventType) (currentEntry : Nat) (c : ParticleCand) (w : World)
    (ha : (prefetchAFT S currentEntry c w).1 = false) :
    writeCandidate S cfg outLUN eventType currentEntry c w = prefetchAFT S currentEntry c w := by
  unfold writeCandidate
  simp [ha]

/-- The loop body when the subtrigger re-read fails: the `return false` of line 182. -/
theorem writeCandidate_abort_subtrigger (S : Store) (cfg : Config) (outLUN : Int)
    (eventType : EventType) (currentEntry : Nat) (c : ParticleCand) (w : World)
    (ha : (prefetchAFT S currentEntry c w).1 = true)
    (hb : (loadPrimary S eventType c (prefetchAFT S currentEntry c w).2).1 = false) :
    writeCandidate S cfg outLUN eventType currentEntry c w =
      loadPrimary S eventType c (prefetchAFT S currentEntry c w).2 := by
  unfold writeCandidate
  simp [ha, hb]

/-- The loop body for a LowE candidate whose reads do not return from the call. -/
theorem writeCandidate_LowE_eq (S : Store) (cfg : Config) (outLUN : Int)
    (currentEntry : Nat) (c : ParticleCand) (w : World)
    (ha : (prefetchAFT S currentEntry c w).1 = true)
    (hb : (loadPrimary S EventType.LowE c (prefetchAFT S currentEntry c w).2).1 = true) :
    writeCandidate S cfg outLUN EventType.LowE currentEntry c w =
      (true, emit cfg outLUN EventType.LowE c
        (loadPrimary S EventType.LowE c (prefetchAFT S currentEntry c w).2).2) := by
  unfold writeCandidate
  simp [ha, hb]

/-- The loop body for a muon candidate whose reconstruction succeeds. -/
theorem writeCandidate_Muon_ok (S : Store) (cfg : Config) (outLUN : Int)
    (currentEntry : Nat) (c : ParticleCand) (w : World)
    (ha : (prefetchAFT S currentEntry c w).1 = true)
    (hb : (loadPrimary S EventType.Muon c (prefetchAFT S currentEntry c w).2).1 = true)
    (hr : (ReconstructNextMuon cfg.noBFF
      (loadPrimary S EventType.Muon c (prefetchAFT S currentEntry c w).2).2.vars_tryBFF
      (loadPrimary S EventType.Muon c (prefetchAFT S currentEntry c w).2).2.routines
      (loadPrimary S EventType.Muon c (prefetchAFT S currentEntry c w).2).2.reco).1 = true) :
    writeCandidate S cfg outLUN EventType.Muon currentEntry c w =
      (true, emit cfg outLUN EventType.Muon c
        { (loadPrimary S EventType.Muon c (prefetchAFT S currentEntry c w).2).2 with
          reco := (ReconstructNextMuon cfg.noBFF
            (loadPrimary S EventType.Muon c (prefetchAFT S currentEntry c w).2).2.vars_tryBFF
            (loadPrimary S EventType.Muon c (prefetchAFT S currentEntry c w).2).2.routines
            (loadPrimary S EventType.Muon c (prefetchAFT S currentEntry c w).2).2.reco).2 }) := by
  unfold writeCandidate
  simp [ha, hb, hr]

/-- The loop body for a muon candidate whose reconstruction fails: the `continue` of
line 201, with nothing emitted. -/
theorem writeCandidate_Muon_fail (S : Store) (cfg : Config) (outLUN : Int)
    (currentEntry : Nat) (c : ParticleCand) (w : World)
    (ha : (prefetchAFT S currentEntry c w).1 = true)
    (hb : (loadPrimary S EventType.Muon c (prefetchAFT S currentEntry c w).2).1 = true)
    (hr : (ReconstructNextMuon cfg.noBFF
      (loadPrimary S EventType.Muon c (prefetchAFT S currentEntry c w).2).2.vars_tryBFF
      (loadPrimary S EventType.Muon c (prefetchAFT S currentEntry c w).2).2.routines
      (loadPrimary S EventType.Muon c (prefetchAFT S currentEntry c w).2).2.reco).1 = false) :
    writeCandidate S cfg outLUN EventType.Muon currentEntry c w =
      (true,
        { (loadPrimary S EventType.Muon c (prefetchAFT S currentEntry c w).2).2 with
          reco := (ReconstructNextMuon cfg.noBFF
            (loadPrimary S EventType.Muon c (prefetchAFT S currentEntry c w).2).2.vars_tryBFF
            (loadPrimary S EventType.Muon c (prefetchAFT S currentEntry c w).2).2.routines
            (loadPrimary S EventType.Muon c (prefetchAFT S currentEntry c w).2).2.reco).2 }) := by
  unfold writeCandidate
  simp [ha, hb, hr]

/-- One turn of the loop that does not return from the call leaves the masking mode. -/
theorem writeCandidate_mask_ok (S : Store) (cfg : Config) (outLUN : Int)
    (eventType : EventType) (currentEntry : Nat) (c : ParticleCand) (w : World)
    (h : (writeCandidate S cfg outLUN eventType currentEntry c w).1 = true) :
    (writeCandidate S cfg outLUN eventType currentEntry c w).2.imaskbadopt = w.imaskbadopt := by
  cases ha : (prefetchAFT S currentEntry c w).1
  · rw [writeCandidate_abort_lookahead S cfg outLUN eventType currentEntry c w ha] at h
    rw [ha] at h
    exact Bool.noConfusion h
  · cases hb : (loadPrimary S eventType c (prefetchAFT S currentEntry c w).2).1
    · rw [writeCandidate_abort_subtrigger S cfg outLUN eventType currentEntry c w ha hb] at h
      rw [hb] at h
      exact Bool.noConfusion h
    · have hm := loadPrimary_mask_ok S eventType c _ hb
      rw [(prefetchAFT_frame S currentEntry c w).1] at hm
      cases eventType
      · rw [writeCandidate_LowE_eq S cfg outLUN currentEntry c w ha hb]
        show (emit _ _ _ _ _).imaskbadopt = _
        rw [emit_mask, hm]
      · cases hr : (ReconstructNextMuon cfg.noBFF
          (loadPrimary S EventType.Muon c (prefetchAFT S currentEntry c w).2).2.vars_tryBFF
          (loadPrimary S EventType.Muon c (prefetchAFT S currentEntry c w).2).2.routines
          (loadPrimary S EventType.Muon c (prefetchAFT S currentEntry c w).2).2.reco).1
        · rw [writeCandidate_Muon_fail S cfg outLUN currentEntry c w ha hb hr]
          exact hm
        · rw [writeCandidate_Muon_ok S cfg outLUN currentEntry c w ha hb hr]
          show (emit _ _ _ _ _).imaskbadopt = _
          rw [emit_mask]
          exact hm

/-- The loop goes on to the next candidate when the body does not return from the call. -/
theorem writeLoop_cons_ok (S : Store) (cfg : Config) (outLUN : Int) (eventType : EventType)
    (currentEntry : Nat) (c : ParticleCand) (cs : List ParticleCand) (w : World)
    (h : (writeCandidate S cfg outLUN eventType currentEntry c w).1 = true) :
    writeLoop S cfg outLUN eventType currentEntry (c :: cs) w =
      writeLoop S cfg outLUN eventType currentEntry cs
        (writeCandidate S cfg outLUN eventType currentEntry c w).2 := by
  rw [writeLoop]
  simp [h]

/-- The loop ends, with no later candidate processed, when the body returns from the
call. -/
theorem writeLoop_cons_abort (S : Store) (cfg : Config) (outLUN : Int) (eventType : EventType)
    (currentEntry : Nat) (c : ParticleCand) (cs : List ParticleCand) (w : World)
    (h : (writeCandidate S cfg outLUN eventType currentEntry c w).1 = false) :
    writeLoop S cfg outLUN eventType currentEntry (c :: cs) w =
      writeCandidate S cfg outLUN eventType currentEntry c w := by
  rw [writeLoop]
  simp [h]

/-- The call when the loop runs to the end: the queue is cleared, the reader is sought
back to the entry of line 119 if it stands elsewhere, and `true` is returned. -/
theorem WriteEventsOut_ok (S : Store) (cfg : Config) (eventsToWrite : List ParticleCand)
    (outLUN : Int) (eventType : EventType) (w : World)
    (h : (writeLoop S cfg outLUN eventType w.entry eventsToWrite w).1 = true) :
    WriteEventsOut S cfg eventsToWrite outLUN eventType w =
      (true, [],
        if w.entry ≠ (writeLoop S cfg outLUN eventType w.entry eventsToWrite w).2.entry then
          (getTreeEntry S w.entry (writeLoop S cfg outLUN eventType w.entry eventsToWrite w).2).2
        else (writeLoop S cfg outLUN eventType w.entry eventsToWrite w).2) := by
  unfold WriteEventsOut
  simp [h]

/-- The call when the loop body returns from it: `false` is returned with the queue and
the world as the loop left them. -/
theorem WriteEventsOut_abort (S : Store) (cfg : Config) (eventsToWrite : List ParticleCand)
    (outLUN : Int) (eventType : EventType) (w : World)
    (h : (writeLoop S cfg outLUN eventType w.entry eventsToWrite w).1 = false) :
    WriteEventsOut S cfg eventsToWrite outLUN eventType w =
      (false, eventsToWrite, (writeLoop S cfg outLUN eventType w.entry eventsToWrite w).2) := by
  unfold WriteEventsOut
  simp [h]

/-- A loop that runs to the end leaves the masking mode. -/
theorem writeLoop_mask_ok (S : Store) (cfg : Config) (outLUN : Int) (eventType : EventType)
    (currentEntry : Nat) :
    ∀ (q : List ParticleCand) (w : World),
      (writeLoop S cfg outLUN eventType currentEntry q w).1 = true →
      (writeLoop S cfg outLUN eventType currentEntry q w).2.imaskbadopt = w.imaskbadopt := by
  intro q
  induction q with
  | nil => intro w _; rfl
  | cons c cs ih =>
    intro w h
    cases hc : (writeCandidate S cfg outLUN eventType currentEntry c w).1
    · rw [writeLoop_cons_abort S cfg outLUN eventType currentEntry c cs w hc, hc] at h
      exact Bool.noConfusion h
    · rw [writeLoop_cons_ok S cfg outLUN eventType currentEntry c cs w hc] at h ⊢
      rw [ih _ h, writeCandidate_mask_ok S cfg outLUN eventType currentEntry c w hc]

/-- When `WriteEventsOut` returns `true` the masking mode is the one it was entered
with, for either category. -/
theorem WriteEventsOut_mask_ok (S : Store) (cfg : Config) (eventsToWrite : List ParticleCand)
    (outLUN : Int) (eventType : EventType) (w : World)
    (h : (WriteEventsOut S cfg eventsToWrite outLUN eventType w).1 = true) :
    (WriteEventsOut S cfg eventsToWrite outLUN eventType w).2.2.imaskbadopt =
      w.imaskbadopt := by
  cases hl : (writeLoop S cfg outLUN eventType w.entry eventsToWrite w).1
  · rw [WriteEventsOut_abort S cfg eventsToWrite outLUN eventType w hl] at h
    exact Bool.noConfusion h
  · have hm := writeLoop_mask_ok S cfg outLUN eventType w.entry eventsToWrite w hl
    rw [WriteEventsOut_ok S cfg eventsToWrite outLUN eventType w hl]
    show (if _ then _ else _ : World).imaskbadopt = _
    split_ifs
    · rw [(getTreeEntry_frame S _ _).1, hm]
    · exact hm

/-- One turn of the loop on a LowE candidate leaves the masking mode, whether it returns
or not. -/
theorem writeCandidate_LowE_mask (S : Store) (cfg : Config) (outLUN : Int)
    (currentEntry : Nat) (c : ParticleCand) (w : World) :
    (writeCandidate S cfg outLUN EventType.LowE currentEntry c w).2.imaskbadopt =
      w.imaskbadopt := by
  cases ha : (prefetchAFT S currentEntry c w).1
  · rw [writeCandidate_abort_lookahead S cfg outLUN _ currentEntry c w ha]
    exact (prefetchAFT_frame S currentEntry c w).1
  · cases hb : (loadPrimary S EventType.LowE c (prefetchAFT S currentEntry c w).2).1
    · rw [writeCandidate_abort_subtrigger S cfg outLUN _ currentEntry c w ha hb,
        loadPrimary_LowE_mask]
      exact (prefetchAFT_frame S currentEntry c w).1
    · rw [writeCandidate_LowE_eq S cfg outLUN currentEntry c w ha hb]
      show (emit _ _ _ _ _).imaskbadopt = _
      rw [emit_mask, loadPrimary_LowE_mask]
      exact (prefetchAFT_frame S currentEntry c w).1

/-- A call on the LowE category never changes the masking mode, on any path. -/
theorem WriteEventsOut_LowE_mask (S : Store) (cfg : Config) (outLUN : Int) :
    ∀ (eventsToWrite : List ParticleCand) (w : World),
      (WriteEventsOut S cfg eventsToWrite outLUN EventType.LowE w).2.2.imaskbadopt =
        w.imaskbadopt := by
  have hloop : ∀ (ce : Nat) (q : List ParticleCand) (w : World),
      (writeLoop S cfg outLUN EventType.LowE ce q w).2.imaskbadopt = w.imaskbadopt := by
    intro ce q
    induction q with
    | nil => intro w; rfl
    | cons c cs ih =>
      intro w
      cases hc : (writeCandidate S cfg outLUN EventType.LowE ce c w).1
      · rw [writeLoop_cons_abort S cfg outLUN _ ce c cs w hc]
        exact writeCandidate_LowE_mask S cfg outLUN ce c w
      · rw [writeLoop_cons_ok S cfg outLUN _ ce c cs w hc, ih,
          writeCandidate_LowE_mask]
  intro q w
  cases hl : (writeLoop S cfg outLUN EventType.LowE w.entry q w).1
  · rw [WriteEventsOut_abort S cfg q outLUN _ w hl]
    exact hloop _ _ _
  · rw [WriteEventsOut_ok S cfg q outLUN _ w hl]
    show (if _ then _ else _ : World).imaskbadopt = _
    split_ifs
    · rw [(getTreeEntry_frame S _ _).1, hloop]
    · exact hloop _ _ _

/-- A failing lookahead read for the candidate at the head of the queue: the call
returns `false` at once with the queue and the world as they were, so no row is appended
and no later candidate is processed. -/
theorem WriteEventsOut_lookahead_fails (S : Store) (cfg : Config) (c : ParticleCand)
    (cs : List ParticleCand) (outLUN : Int) (eventType : EventType) (w : World)
    (haft : c.hasAFT = true) (hne : c.InEntryNumber + 1 ≠ w.entry)
    (hread : S.readable (c.InEntryNumber + 1) = false) :
    WriteEventsOut S cfg (c :: cs) outLUN eventType w = (false, c :: cs, w) := by
  have hp := prefetchAFT_fails S w.entry c w haft hne hread
  have hc : writeCandidate S cfg outLUN eventType w.entry c w = (false, w) := by
    rw [writeCandidate_abort_lookahead S cfg outLUN eventType w.entry c w (by rw [hp]), hp]
  have hl : writeLoop S cfg outLUN eventType w.entry (c :: cs) w = (false, w) := by
    rw [writeLoop_cons_abort S cfg outLUN eventType w.entry c cs w (by rw [hc]), hc]
  rw [WriteEventsOut_abort S cfg (c :: cs) outLUN eventType w (by rw [hl]), hl]

/-- A failing subtrigger re-read for the candidate at the head of the queue: the call
returns `false` with the queue as it was and no row appended to any tree. -/
theorem WriteEventsOut_subtrigger_fails (S : Store) (cfg : Config) (c : ParticleCand)
    (cs : List ParticleCand) (outLUN : Int) (eventType : EventType) (w : World)
    (ha : (prefetchAFT S w.entry c w).1 = true)
    (hb : (loadPrimary S eventType c (prefetchAFT S w.entry c w).2).1 = false) :
    (WriteEventsOut S cfg (c :: cs) outLUN eventType w).1 = false ∧
    (WriteEventsOut S cfg (c :: cs) outLUN eventType w).2.1 = c :: cs ∧
    (WriteEventsOut S cfg (c :: cs) outLUN eventType w).2.2.trees = w.trees := by
  have hc := writeCandidate_abort_subtrigger S cfg outLUN eventType w.entry c w ha hb
  have hl : writeLoop S cfg outLUN eventType w.entry (c :: cs) w =
      loadPrimary S eventType c (prefetchAFT S w.entry c w).2 := by
    rw [writeLoop_cons_abort S cfg outLUN eventType w.entry c cs w (by rw [hc, hb]), hc]
  rw [WriteEventsOut_abort S cfg (c :: cs) outLUN eventType w (by rw [hl, hb]), hl]
  exact ⟨rfl, rfl, by
    show (loadPrimary S eventType c (prefetchAFT S w.entry c w).2).2.trees = w.trees
    rw [loadPrimary_trees, (prefetchAFT_frame S w.entry c w).2]⟩

/-- C11, the code at the failing input: a store of 10 entries, the reader on entry 5,
and the LowE queue of a candidate at entry 12, which the store cannot read, followed by a
candidate at entry 3. The primary read of entry 12 fails, but its status (line 171) is
not looked at: the call returns `true`, and rows are appended for both candidates. The
lookahead read and the subtrigger re-read do end the call
(`WriteEventsOut_lookahead_fails`, `WriteEventsOut_subtrigger_fails`). -/
theorem C11_WriteEventsOut_primary_read_failure_ignored :
    (storeOf 10 0 (routinesOf 1 1 2 1 0)).readable 12 = false ∧
    (WriteEventsOut (storeOf 10 0 (routinesOf 1 1 2 1 0)) (cfgOf false)
      [candOf 12 false 0, candOf 3 false 1] 20 EventType.LowE
      (worldOf 5 0 (routinesOf 1 1 2 1 0))).1 = true ∧
    ((WriteEventsOut (storeOf 10 0 (routinesOf 1 1 2 1 0)) (cfgOf false)
      [candOf 12 false 0, candOf 3 false 1] 20 EventType.LowE
      (worldOf 5 0 (routinesOf 1 1 2 1 0))).2.2.trees 20).rows.map
        (fun r => r.NumRollovers) =
      [(candOf 12 false 0).NumRollovers, (candOf 3 false 1).NumRollovers] := by
  decide

/-- The loop over a queue `pre ++ l`: when the loop over `pre` runs to the end it goes on
with `l` from the world it left, and otherwise it ends where the loop over `pre` ended. -/
theorem writeLoop_append (S : Store) (cfg : Config) (outLUN : Int) (eventType : EventType)
    (currentEntry : Nat) (l : List ParticleCand) :
    ∀ (pre : List ParticleCand) (w : World),
      writeLoop S cfg outLUN eventType currentEntry (pre ++ l) w =
        if (writeLoop S cfg outLUN eventType currentEntry pre w).1 = true then
          writeLoop S cfg outLUN eventType currentEntry l
            (writeLoop S cfg outLUN eventType currentEntry pre w).2
        else writeLoop S cfg outLUN eventType currentEntry pre w := by
  intro pre
  induction pre with
  | nil => intro w; simp [writeLoop]
  | cons c cs ih =>
    intro w
    cases hc : (writeCandidate S cfg outLUN eventType currentEntry c w).1
    · rw [List.cons_append, writeLoop_cons_abort S cfg outLUN eventType currentEntry c _ w hc,
        writeLoop_cons_abort S cfg outLUN eventType currentEntry c cs w hc]
      simp [hc]
    · rw [List.cons_append, writeLoop_cons_ok S cfg outLUN eventType currentEntry c _ w hc,
        writeLoop_cons_ok S cfg outLUN eventType currentEntry c cs w hc]
      exact ih _

/-- C12: let a Muon queue be `pre ++ c :: post`, where the loop over `pre` runs to the
end, the reads for `c` do not fail, and `ReconstructNextMuon` returns `false` on the
record loaded for `c`. Then the turn for `c` does not end the call and appends no row to
any tree; the loop goes on with every candidate of `post`, from the world the turn left;
the call returns what the loop over `post` yields, which is `true` when no later turn
returns from the call, in particular when `post` is empty. -/
theorem C12_WriteEventsOut_failed_reconstruction_is_skipped (S : Store) (cfg : Config)
    (outLUN : Int) (pre post : List ParticleCand) (c : ParticleCand) (w : World)
    (hpre : (writeLoop S cfg outLUN EventType.Muon w.entry pre w).1 = true)
    (ha : (prefetchAFT S w.entry c
      (writeLoop S cfg outLUN EventType.Muon w.entry pre w).2).1 = true)
    (hb : (loadPrimary S EventType.Muon c (prefetchAFT S w.entry c
      (writeLoop S cfg outLUN EventType.Muon w.entry pre w).2).2).1 = true)
    (hr : (ReconstructNextMuon cfg.noBFF
      (loadPrimary S EventType.Muon c (prefetchAFT S w.entry c
        (writeLoop S cfg outLUN EventType.Muon w.entry pre w).2).2).2.vars_tryBFF
      (loadPrimary S EventType.Muon c (prefetchAFT S w.entry c
        (writeLoop S cfg outLUN EventType.Muon w.entry pre w).2).2).2.routines
      (loadPrimary S EventType.Muon c (prefetchAFT S w.entry c
        (writeLoop S cfg outLUN EventType.Muon w.entry pre w).2).2).2.reco).1 = false) :
    (writeCandidate S cfg outLUN EventType.Muon w.entry c
      (writeLoop S cfg outLUN EventType.Muon w.entry pre w).2).1 = true ∧
    (writeCandidate S cfg outLUN EventType.Muon w.entry c
      (writeLoop S cfg outLUN EventType.Muon w.entry pre w).2).2.trees =
      (writeLoop S cfg outLUN EventType.Muon w.entry pre w).2.trees ∧
    writeLoop S cfg outLUN EventType.Muon w.entry (pre ++ c :: post) w =
      writeLoop S cfg outLUN EventType.Muon w.entry post
        (writeCandidate S cfg outLUN EventType.Muon w.entry c
          (writeLoop S cfg outLUN EventType.Muon w.entry pre w).2).2 ∧
    (WriteEventsOut S cfg (pre ++ c :: post) outLUN EventType.Muon w).1 =
      (writeLoop S cfg outLUN EventType.Muon w.entry post
        (writeCandidate S cfg outLUN EventType.Muon w.entry c
          (writeLoop S cfg outLUN EventType.Muon w.entry pre w).2).2).1 ∧
    (post = [] → (WriteEventsOut S cfg (pre ++ c :: post) outLUN EventType.Muon w).1 = true) := by
  have hc := writeCandidate_Muon_fail S cfg outLUN w.entry c
    (writeLoop S cfg outLUN EventType.Muon w.entry pre w).2 ha hb hr
  have h1 : (writeCandidate S cfg outLUN EventType.Muon w.entry c
      (writeLoop S cfg outLUN EventType.Muon w.entry pre w).2).1 = true := by rw [hc]
  have hloop : writeLoop S cfg outLUN EventType.Muon w.entry (pre ++ c :: post) w =
      writeLoop S cfg outLUN EventType.Muon w.entry post
        (writeCandidate S cfg outLUN EventType.Muon w.entry c
          (writeLoop S cfg outLUN EventType.Muon w.entry pre w).2).2 := by
    rw [writeLoop_append, if_pos hpre, writeLoop_cons_ok S cfg outLUN _ w.entry c post _ h1]
  have hcall : (WriteEventsOut S cfg (pre ++ c :: post) outLUN EventType.Muon w).1 =
      (writeLoop S cfg outLUN EventType.Muon w.entry post
        (writeCandidate S cfg outLUN EventType.Muon w.entry c
          (writeLoop S cfg outLUN EventType.Muon w.entry pre w).2).2).1 := by
    rw [← hloop]
    cases hl : (writeLoop S cfg outLUN EventType.Muon w.entry (pre ++ c :: post) w).1
    · rw [WriteEventsOut_abort S cfg _ outLUN _ w hl]
    · rw [WriteEventsOut_ok S cfg _ outLUN _ w hl]
  refine ⟨h1, ?_, hloop, hcall, ?_⟩
  · rw [hc]
    show (loadPrimary S EventType.Muon c _).2.trees = _
    rw [loadPrimary_trees, (prefetchAFT_frame S w.entry c _).2]
  · intro hpost
    rw [hcall, hpost]
    rfl

/-- C12 at a concrete input: a store in which the fast selector returns 0 on entry 3
only, a stale one-element vector in the `CStore`, and the Muon queue of candidates at
entries 3 and 4. The turn for entry 3 appends nothing, the loop goes on, the call returns
`true`, and the only row written is the one of the candidate at entry 4. -/
theorem C12_witness :
    (writeCandidate (storeFailAt 10 3) (cfgOf false) 21 EventType.Muon 5 (candOf 3 false 0)
      (worldWithCStore 5 0 (routinesOf 1 1 2 1 0) [skroot_mu_zero])).2.trees =
      (worldWithCStore 5 0 (routinesOf 1 1 2 1 0) [skroot_mu_zero]).trees ∧
    (WriteEventsOut (storeFailAt 10 3) (cfgOf false) ([] ++ candOf 3 false 0 :: [candOf 4 false 1])
      21 EventType.Muon (worldWithCStore 5 0 (routinesOf 1 1 2 1 0) [skroot_mu_zero])).1 = true ∧
    ((WriteEventsOut (storeFailAt 10 3) (cfgOf false) ([] ++ candOf 3 false 0 :: [candOf 4 false 1])
      21 EventType.Muon (worldWithCStore 5 0 (routinesOf 1 1 2 1 0)
        [skroot_mu_zero])).2.2.trees 21).rows.map (fun r => r.NumRollovers) =
      [(candOf 4 false 1).NumRollovers] :=
  ⟨(C12_WriteEventsOut_failed_reconstruction_is_skipped (storeFailAt 10 3) (cfgOf false) 21
      [] [candOf 4 false 1] (candOf 3 false 0)
      (worldWithCStore 5 0 (routinesOf 1 1 2 1 0) [skroot_mu_zero])
      (by decide) (by decide) (by decide) (by decide)).2.1,
   by decide, by decide⟩

/-- C13, the code at the failing input: a store of 10 entries, the reader on entry 5,
and the LowE queue of a candidate at entry 3 followed by a candidate at entry 9 with an
AFT, whose lookahead read of entry 10 fails. The call returns `false` at line 150: the
queue still holds both candidates, and the reader is left on entry 3, not sought back to
entry 5. -/
theorem C13_WriteEventsOut_abort_skips_cleanup :
    (worldOf 5 0 (routinesOf 1 1 2 1 0)).entry = 5 ∧
    (storeOf 10 0 (routinesOf 1 1 2 1 0)).readable 10 = false ∧
    (WriteEventsOut (storeOf 10 0 (routinesOf 1 1 2 1 0)) (cfgOf false)
      [candOf 3 false 0, candOf 9 true 1] 20 EventType.LowE
      (worldOf 5 0 (routinesOf 1 1 2 1 0))).1 = false ∧
    (WriteEventsOut (storeOf 10 0 (routinesOf 1 1 2 1 0)) (cfgOf false)
      [candOf 3 false 0, candOf 9 true 1] 20 EventType.LowE
      (worldOf 5 0 (routinesOf 1 1 2 1 0))).2.1.length = 2 ∧
    (WriteEventsOut (storeOf 10 0 (routinesOf 1 1 2 1 0)) (cfgOf false)
      [candOf 3 false 0, candOf 9 true 1] 20 EventType.LowE
      (worldOf 5 0 (routinesOf 1 1 2 1 0))).2.2.entry = 3 := by
  decide

/-- C14, the code at the failing input: masking mode 3 at entry, and the Muon queue of
one candidate that is a subtrigger, on a store whose gated re-read returns status 1. The
mode is saved and set to 0 for the primary load, the call returns `false` at line 182,
and the mode is left at 0 instead of 3. When the call returns `true`
(`WriteEventsOut_mask_ok`), and on every path of a LowE call
(`WriteEventsOut_LowE_mask`), the mode at return is the mode at entry. -/
theorem C14_WriteEventsOut_abort_leaves_masking_mode_zero :
    (worldOf 5 3 (routinesOf 1 1 2 1 0)).imaskbadopt = 3 ∧
    (WriteEventsOut (storeOf 10 1 (routinesOf 1 1 2 1 0)) (cfgOf false) [candSub 3 0 0] 21
      EventType.Muon (worldOf 5 3 (routinesOf 1 1 2 1 0))).1 = false ∧
    (WriteEventsOut (storeOf 10 1 (routinesOf 1 1 2 1 0)) (cfgOf false) [candSub 3 0 0] 21
      EventType.Muon (worldOf 5 3 (routinesOf 1 1 2 1 0))).2.2.imaskbadopt = 0 := by
  decide

/-- C15, the code at the failing inputs, on a store whose entry `n` holds the single ID
hit `(n, n, n)`, with the reader on entry 5. First queue: a candidate at entry 6 with an
AFT, then a candidate at entry 3 without one. The static buffer still holds the hits of
entry 7 when the second candidate is merged, so its row has two ID hits, the second one
the hit of entry 7, where the claim has the empty window merged. Second queue: one
candidate at entry 4 with an AFT. Its AFT entry 5 is the entry the call was entered on, so
no lookahead read is made and the zero-initialised buffer is merged: the row has one ID
hit, where the claim has the hit of entry 5 merged. -/
theorem C15_WriteEventsOut_merges_stale_window :
    ((WriteEventsOut (storeOf 10 0 (routinesOf 1 1 2 1 0)) (cfgOf false)
      [candOf 6 true 1, candOf 3 false 0] 20 EventType.LowE
      (worldOf 5 0 (routinesOf 1 1 2 1 0))).2.2.trees 20).rows.map
        (fun r => (r.nevsk, r.tq.nqisk_raw, r.tq.icabbf_raw 1)) = [(6, 2, 7), (3, 2, 7)] ∧
    (recordOf 5 (routinesOf 1 1 2 1 0)).rawtqinfo.nqisk_raw = 1 ∧
    ((WriteEventsOut (storeOf 10 0 (routinesOf 1 1 2 1 0)) (cfgOf false)
      [candOf 4 true 0] 20 EventType.LowE
      (worldOf 5 0 (routinesOf 1 1 2 1 0))).2.2.trees 20).rows.map
        (fun r => (r.nevsk, r.tq.nqisk_raw, r.tq.icabbf_raw 1)) = [(4, 1, 0)] := by
  decide

end SKAnalysis
